import Mathlib

/-!
# SmartPort-over-SLIP bridge (`lib/bus/iwm/iwm_slip.cpp`)

A shallow embedding of the `iwm_slip` class: the bridge object is a record,
each member function is a function on that record, and the outside world
(name resolution, the results of `socket()` and `connect()`, the frames the
server sends) is an explicit script that the functions consume.

Conventions.

* A member function that can stop without returning (a C++ exception leaving
  it, a null `shared_ptr` dereferenced, `std::terminate`, or a retry loop that
  is still retrying when the scripted future ends) returns `Except Stop _`.
* The two threads are sequentialised: a step of the receiver thread and a call
  of the polling thread are separate, atomic events (both take `queue_mutex_`).
  The one place where the threads wait for each other is the join that the
  reboot handler performs while the poll holds `queue_mutex_`; whether the
  receiver thread then stands before the mutex is the field
  `receiver_at_lock` of the outside world.
* Two ghost fields are added to the record for observation only: `closed`, the
  sockets that were handed to `close()`, and
  `oob_reads`, the number of bytes that were read through an iterator that
  pointed past the last element of a `std::vector`.
-/

namespace IwmSlip

/-! ## Data model -/

/-- One `uint8_t`. -/
abbrev Byte := Fin 256

/-- The byte vector taken from the wire (`std::vector<uint8_t>`). -/
abbrev RawRequest := List Byte

/-- The key type of the special command table, `std::array<uint8_t, 4>`. -/
abbrev Key := Byte × Byte × Byte × Byte

/-- The constant `PHASE_IDLE`, defined as `0b0000`. -/
def PHASE_IDLE : Byte := 0b0000

/-- The constant `PHASE_ENABLE`, defined as `0b1010`. -/
def PHASE_ENABLE : Byte := 0b1010

/-- The constant `PHASE_RESET`, defined as `0b0101`. -/
def PHASE_RESET : Byte := 0b0101

/-- The enumerators of `sp_cmd_state_t` that `iwm_slip.cpp` assigns to the
global `sp_command_mode`. -/
inductive sp_cmd_state_t where
  | standby
  | command
  deriving DecidableEq, Repr

/-- Modelled from the spec: the `Connection` / `TCPConnection` classes
(`TCPConnection.h` is not among the sources). The spec gives a Connection a
socket handle and a connected flag; `read_channel` records whether the reader
started by `create_read_channel` is still running. -/
structure Connection where
  sock : Int
  is_connected : Bool
  read_channel : Bool
  deriving DecidableEq, Repr

/-- Modelled from the spec: `Connection::set_is_connected`, which is missing
from the sources; it stores the connected flag. -/
def Connection.set_is_connected (c : Connection) (b : Bool) : Connection :=
  { c with is_connected := b }

/-- Modelled from the spec: `Connection::join`, which is missing from the
sources; it waits for the reader to finish (stops any running receiver). -/
def Connection.join (c : Connection) : Connection :=
  { c with read_channel := false }

/-- Modelled from the spec: `Connection::create_read_channel`, which is
missing from the sources; it starts the reader. -/
def Connection.create_read_channel (c : Connection) : Connection :=
  { c with read_channel := true }

/-- The ways a member function can stop without returning a value. -/
inductive Stop where
  /-- a `std::runtime_error` leaves the function -/
  | runtime_error
  /-- a null smart pointer is dereferenced -/
  | null_dereference
  /-- a joinable `std::thread` is overwritten, which calls `std::terminate` -/
  | terminate
  /-- the retry loop of `setup_spi` has used up the scripted connect attempts
  and is still looping -/
  | still_retrying
  /-- the polling thread holds `queue_mutex_` and joins the receiver thread,
  which waits for `queue_mutex_`: neither ever goes on -/
  | deadlock
  deriving DecidableEq, Repr

/-- What one call of `connect_to_server` meets: the value returned by
`socket()` and the value returned by `connect()`. -/
structure Attempt where
  sock : Int
  connect_rc : Int
  deriving DecidableEq, Repr

/-- An attempt on which `connect_to_server` returns `true`. -/
def Attempt.succeeds (a : Attempt) : Bool :=
  a.sock != 0 && !(decide (a.connect_rc < 0))

/-- The constant `IPADDR_NONE`, the failure value of `get_ip4_addr_by_name`. -/
def IPADDR_NONE : Nat := 0xFFFFFFFF

/-- The outside world as the bridge meets it: the address that
`get_ip4_addr_by_name(Config.get_boip_host())` returns, the outcomes of the
coming calls of `connect_to_server`, in order, and `receiver_at_lock`:
whether, when the polling thread joins the receiver thread, the receiver has
a frame from `wait_for_request()` in hand and so must take `queue_mutex_`
(line `std::lock_guard` of `wait_for_requests`) before it can leave its
loop. -/
structure World where
  host_ip : Nat
  attempts : List Attempt
  receiver_at_lock : Bool
  deriving DecidableEq, Repr

/-- The parts of the program that `iwm_slip.cpp` uses but that are declared in
headers outside the sources: the `reboot_sequence` constant of `iwm_slip.h`,
the decoder `Request::from_packet` of `slip/Request.h`, and `beyond`, the
bytes that lie in memory after the last element of a request vector
(`beyond 0` is the first byte past the end). -/
structure Platform (Req : Type) where
  reboot_sequence : Key
  from_packet : RawRequest → Req
  beyond : Nat → Byte

/-- The handlers that the special command table can name. -/
inductive SpecialHandler where
  | reboot
  deriving DecidableEq, Repr

/-- The `iwm_slip` object together with the two globals it writes
(`sp_command_mode` and `IWM.command_packet.data`) and the two ghost fields. -/
structure iwm_slip (Req Resp : Type) where
  is_responding_ : Bool
  connection_ : Option Connection
  connection_sock : Int
  /-- whether `request_thread_.joinable()` -/
  request_thread_ : Bool
  request_queue_ : List RawRequest
  current_request : Option Req
  current_response : Option Resp
  sp_command_mode : sp_cmd_state_t
  /-- the array `IWM.command_packet.data`; its length is the declared array size -/
  command_packet_data : List Byte
  /-- ghost: sockets passed to `close()` so far, oldest first -/
  closed : List Int
  /-- ghost: bytes read past the end of a vector so far -/
  oob_reads : Nat
  deriving DecidableEq, Repr

variable {Req Resp : Type}

/-! ## Member functions -/

/-- The static member `iwm_slip::special_handlers`: the table with its single entry
`{reboot_sequence, &iwm_slip::reboot}`. -/
def special_handlers (P : Platform Req) : List (Key × SpecialHandler) :=
  [(P.reboot_sequence, SpecialHandler.reboot)]

/-- The lookup `special_handlers.find(key_array)`; `none` stands for `end()`. -/
def special_handlers_find (P : Platform Req) (key_array : Key) : Option SpecialHandler :=
  ((special_handlers P).find? (fun e => decide (e.1 = key_array))).map (fun e => e.2)

/-- Member `iwm_slip::close_connection`: nothing for handle 0, otherwise `close(sock)`. -/
def close_connection (sock : Int) (s : iwm_slip Req Resp) : iwm_slip Req Resp :=
  if sock = 0 then s else { s with closed := s.closed ++ [sock] }

/-- Member `iwm_slip::end_request_thread`. -/
def end_request_thread (s : iwm_slip Req Resp) : Except Stop (iwm_slip Req Resp) :=
  let s1 := { s with is_responding_ := false }
  match s1.connection_ with
  | none => Except.error Stop.null_dereference
  | some c =>
    let s2 := { s1 with connection_ := some (c.set_is_connected false) }
    let s3 := { s2 with connection_ := some ((c.set_is_connected false).join) }
    let s4 := close_connection s3.connection_sock s3
    let s5 := { s4 with connection_sock := 0 }
    if s5.request_thread_ then
      Except.ok { s5 with request_thread_ := false }
    else
      Except.ok s5

/-- Member `iwm_slip::connect_to_server` on one attempt (the non-Windows branch).
The result is the returned `bool`; `Stop.runtime_error` is the exception
thrown when `socket()` gives 0. The last statement move-assigns a new
`std::thread` to `request_thread_`, which calls `std::terminate` when the old
thread object is still joinable. -/
def connect_to_server (a : Attempt) (s : iwm_slip Req Resp) :
    Except Stop (Bool × iwm_slip Req Resp) :=
  if a.sock = 0 then
    Except.error Stop.runtime_error
  else if a.connect_rc < 0 then
    Except.ok (false, close_connection a.sock s)
  else
    let s1 := { s with connection_sock := a.sock }
    let conn : Connection := { sock := a.sock, is_connected := false, read_channel := false }
    let conn := conn.set_is_connected true
    let conn := conn.create_read_channel
    let s2 := { s1 with connection_ := some conn }
    let s3 := { s2 with is_responding_ := true }
    if s3.request_thread_ then
      Except.error Stop.terminate
    else
      Except.ok (true, { s3 with request_thread_ := true })

/-- The `while (!connected)` loop of `iwm_slip::setup_spi`, one scripted
attempt per iteration. A `std::runtime_error` from `connect_to_server` is
caught and the loop goes on; the progress dots and the 1 ms sleep are not
modelled. The result carries the attempts that were not used. -/
def setup_spi_loop : List Attempt → iwm_slip Req Resp →
    Except Stop (iwm_slip Req Resp × List Attempt)
  | [], _ => Except.error Stop.still_retrying
  | a :: rest, s =>
    match connect_to_server a s with
    | Except.error Stop.runtime_error => setup_spi_loop rest s
    | Except.error e => Except.error e
    | Except.ok (true, s1) => Except.ok (s1, rest)
    | Except.ok (false, s1) => setup_spi_loop rest s1

/-- Member `iwm_slip::setup_spi`. -/
def setup_spi (w : World) (s : iwm_slip Req Resp) : Except Stop (iwm_slip Req Resp × World) :=
  if w.host_ip = IPADDR_NONE then
    Except.error Stop.runtime_error
  else
    match setup_spi_loop w.attempts s with
    | Except.error e => Except.error e
    | Except.ok (s1, rest) => Except.ok (s1, { w with attempts := rest })

/-- Member `iwm_slip::reboot`. Its only caller is `iwm_phase_vector`, which
holds `queue_mutex_` for the whole call. The last statement of
`end_request_thread`, `request_thread_.join()` on a joinable thread, therefore
returns only when the receiver thread can leave its loop without the mutex;
when the receiver stands before the mutex (`w.receiver_at_lock`) the join
never returns and the result is `Stop.deadlock`. -/
def reboot (w : World) (s : iwm_slip Req Resp) : Except Stop (Byte × iwm_slip Req Resp × World) :=
  let s1 := { s with is_responding_ := false }
  match end_request_thread s1 with
  | Except.error e => Except.error e
  | Except.ok s2 =>
    if w.receiver_at_lock = true ∧ s1.request_thread_ = true then
      Except.error Stop.deadlock
    else
      match setup_spi w s2 with
      | Except.error e => Except.error e
      | Except.ok (s3, w1) => Except.ok (PHASE_RESET, s3, w1)

/-- Calling a table entry on the bridge: `(it->second)(this)`. -/
def SpecialHandler.call (h : SpecialHandler) (w : World) (s : iwm_slip Req Resp) :
    Except Stop (Byte × iwm_slip Req Resp × World) :=
  match h with
  | SpecialHandler.reboot => IwmSlip.reboot w s

/-- The call `std::fill(std::begin(data), std::end(data), 0)`. -/
def std_fill_zero (data : List Byte) : List Byte :=
  data.map (fun _ => 0)

/-- The call `std::copy(v.begin() + i, v.begin() + i + n, data + i)`, one element per
step. A read at an index inside `v` gives the element; a read at an index
`i ≥ v.size()` is outside the vector: it is counted in the second component
and yields the byte `beyond (i - v.size())`. -/
def std_copy (beyond : Nat → Byte) (v : RawRequest) :
    Nat → Nat → List Byte × Nat → List Byte × Nat
  | _, 0, acc => acc
  | i, n + 1, (data, oob) =>
    if h : i < v.length then
      std_copy beyond v (i + 1) n (data.set i (v.get ⟨i, h⟩), oob)
    else
      std_copy beyond v (i + 1) n (data.set i (beyond (i - v.length)), oob + 1)

/-- The special-request test of `iwm_phase_vector`: when the size is 4 the
key is built from the four bytes and looked up; any other size, or a key that
is not in the table, gives `none`. -/
def special_lookup (P : Platform Req) (request_data : RawRequest) : Option SpecialHandler :=
  match request_data with
  | [b0, b1, b2, b3] => special_handlers_find P (b0, b1, b2, b3)
  | _ => none

/-- Member `iwm_slip::iwm_phase_vector`. -/
def iwm_phase_vector (P : Platform Req) (w : World) (s : iwm_slip Req Resp) :
    Except Stop (Byte × iwm_slip Req Resp × World) :=
  match s.request_queue_ with
  | [] => Except.ok (PHASE_IDLE, { s with sp_command_mode := sp_cmd_state_t.standby }, w)
  | request_data :: queue_rest =>
    let s1 := { s with request_queue_ := queue_rest }
    match special_lookup P request_data with
    | some handler => handler.call w s1
    | none =>
      let s2 := { s1 with current_request := some (P.from_packet request_data) }
      let s3 := { s2 with command_packet_data := std_fill_zero s2.command_packet_data }
      let copied := std_copy P.beyond request_data 0 8 (s3.command_packet_data, s3.oob_reads)
      let s4 := { s3 with command_packet_data := copied.1, oob_reads := copied.2 }
      let s5 := { s4 with sp_command_mode := sp_cmd_state_t.command }
      Except.ok (PHASE_ENABLE, s5, w)

/-- Member `iwm_slip::iwm_send_packet_spi`. `serialize` is `Response::serialize` and
`send_data` tells whether `connection_->send_data(data)` returns (`true`) or
throws a `std::runtime_error` (`false`); both are declared outside the
sources. The hexdump and the log line are not modelled. -/
def iwm_send_packet_spi (serialize : Resp → List Byte) (send_data : List Byte → Bool)
    (s : iwm_slip Req Resp) : Except Stop (Int × iwm_slip Req Resp) :=
  match s.current_response with
  | none => Except.error Stop.null_dereference
  | some response =>
    let data := serialize response
    match s.connection_ with
    | none => Except.error Stop.null_dereference
    | some _ =>
      if send_data data then
        Except.ok (0, s)
      else
        Except.ok (0, s)

/-- One pass through the body of the loop in `iwm_slip::wait_for_requests`,
with `request_data` the result of `connection_->wait_for_request()`. -/
def wait_for_requests_body (request_data : RawRequest) (s : iwm_slip Req Resp) :
    iwm_slip Req Resp :=
  if request_data.isEmpty then s
  else { s with request_queue_ := s.request_queue_ ++ [request_data] }

/-- Member `iwm_slip::wait_for_requests` on the scripted results of
`wait_for_request()`; when the script ends the thread is blocked in
`wait_for_request()`. The call goes through `connection_`, so a null
`connection_` is a null dereference. -/
def wait_for_requests : List RawRequest → iwm_slip Req Resp → Except Stop (iwm_slip Req Resp)
  | [], s => Except.ok s
  | request_data :: more, s =>
    if s.is_responding_ then
      match s.connection_ with
      | none => Except.error Stop.null_dereference
      | some _ => wait_for_requests more (wait_for_requests_body request_data s)
    else Except.ok s

/-! ## Observation of runs -/

/-- What can happen to the bridge: the receiver thread gets a frame from
`wait_for_request()`, or the bus side calls `iwm_phase_vector`. -/
inductive Event where
  | receive (request_data : RawRequest)
  | poll
  deriving DecidableEq, Repr

/-- The frames of a schedule that the receiver thread pushes: the non-empty
ones, in order of arrival. -/
def pushed : List Event → List RawRequest
  | [] => []
  | Event.receive request_data :: evs =>
    if request_data.isEmpty then pushed evs else request_data :: pushed evs
  | Event.poll :: evs => pushed evs

/-- The number of polls in a schedule. -/
def poll_count : List Event → Nat
  | [] => 0
  | Event.receive _ :: evs => poll_count evs
  | Event.poll :: evs => poll_count evs + 1

/-- Runs a schedule. Each poll records the buffer that was at the front of
the queue when it was called (nothing when the queue was empty); the result
lists these buffers in the order of the polls. -/
def run (P : Platform Req) : List Event → World → iwm_slip Req Resp →
    Except Stop (List RawRequest × iwm_slip Req Resp × World)
  | [], w, s => Except.ok ([], s, w)
  | Event.receive request_data :: evs, w, s =>
    match wait_for_requests [request_data] s with
    | Except.error e => Except.error e
    | Except.ok s1 => run P evs w s1
  | Event.poll :: evs, w, s =>
    match iwm_phase_vector P w s with
    | Except.error e => Except.error e
    | Except.ok (_, s1, w1) =>
      match run P evs w1 s1 with
      | Except.error e => Except.error e
      | Except.ok (consumed, s2, w2) =>
        Except.ok (s.request_queue_.head?.toList ++ consumed, s2, w2)

/-- The fields that belong to the bus side of the bridge are the same in
both states. -/
def same_bus_side (s t : iwm_slip Req Resp) : Prop :=
  t.request_queue_ = s.request_queue_ ∧ t.current_request = s.current_request ∧
  t.current_response = s.current_response ∧ t.sp_command_mode = s.sp_command_mode ∧
  t.command_packet_data = s.command_packet_data ∧ t.oob_reads = s.oob_reads

/-- The sockets that the failed attempts of a retry loop hand to `close()`:
those that `socket()` did create. -/
def closed_by (fails : List Attempt) : List Int :=
  (fails.filter (fun a => a.sock != 0)).map (fun a => a.sock)

/-! ## Sample values -/

/-- A sample platform: requests decode to themselves, the reboot sequence is
`FF 00 FF 00`, and every byte behind a request vector is `AA`. -/
def sample_platform : Platform RawRequest :=
  { reboot_sequence := (0xFF, 0x00, 0xFF, 0x00), from_packet := fun v => v, beyond := fun _ => 0xAA }

/-- The sample reboot sequence as a frame. -/
def sample_reboot : RawRequest := [0xFF, 0x00, 0xFF, 0x00]

/-- A connected bridge on socket 7 with the given queue and an 8-byte command
buffer that holds `EE` everywhere. -/
def sample_bridge (queue : List RawRequest) : iwm_slip RawRequest (List Byte) :=
  { is_responding_ := true
    connection_ := some { sock := 7, is_connected := true, read_channel := true }
    connection_sock := 7
    request_thread_ := true
    request_queue_ := queue
    current_request := none
    current_response := some [0x42]
    sp_command_mode := sp_cmd_state_t.standby
    command_packet_data := List.replicate 8 0xEE
    closed := []
    oob_reads := 0 }

/-- A network on which the host resolves and the connect attempts go:
refused on socket 8, `socket()` fails, accepted on socket 9, accepted on
socket 10; the receiver thread has no frame in hand. -/
def sample_world : World :=
  { host_ip := 0x0100007F
    attempts := [{ sock := 8, connect_rc := -1 }, { sock := 0, connect_rc := 0 },
                 { sock := 9, connect_rc := 0 }, { sock := 10, connect_rc := 0 }]
    receiver_at_lock := false }

/-- The sample network at a moment when the receiver thread has a frame in
hand and stands before `queue_mutex_`. -/
def busy_world : World :=
  { sample_world with receiver_at_lock := true }

/-- A network on which the host resolves and each of the next four connect
attempts is accepted; the receiver thread has no frame in hand. -/
def steady_world : World :=
  { host_ip := 0x0100007F
    attempts := [{ sock := 9, connect_rc := 0 }, { sock := 10, connect_rc := 0 },
                 { sock := 11, connect_rc := 0 }, { sock := 12, connect_rc := 0 }]
    receiver_at_lock := false }

/-- A schedule: a nine-byte frame arrives, a poll, an empty frame, the reboot
sequence and a one-byte frame arrive, then three polls. -/
def sample_schedule : List Event :=
  [Event.receive [1, 2, 3, 4, 5, 6, 7, 8, 9], Event.poll, Event.receive [],
   Event.receive sample_reboot, Event.receive [3], Event.poll, Event.poll, Event.poll]

/-- A bridge object as constructed, before `setup_spi` has run: no connection,
no receiver thread, 8-byte command buffer of zeros. -/
def fresh_bridge : iwm_slip RawRequest (List Byte) :=
  { is_responding_ := false
    connection_ := none
    connection_sock := 0
    request_thread_ := false
    request_queue_ := []
    current_request := none
    current_response := none
    sp_command_mode := sp_cmd_state_t.standby
    command_packet_data := List.replicate 8 0
    closed := []
    oob_reads := 0 }

end IwmSlip

/-!
# ATR disk images (`lib/sio/diskTypeAtr.cpp`)

The sector layout functions and the header written by `create` and parsed by
`mount`. Machine integers are natural numbers, reduced modulo the width of
the C type wherever the source can wrap. A file is a byte list with a
position and a capacity; a write that does not fit is a short write.
-/

/-- The enumerators of `disktype_t` that `diskTypeAtr.cpp` uses. -/
inductive disktype_t where
  | DISKTYPE_UNKNOWN
  | DISKTYPE_ATR
  deriving DecidableEq, Repr

/-- The members of `DiskTypeATR` that the layout functions, `mount` and
`create` read or write. The `_lastSectorUsed` member is `none` when it holds
`INVALID_SECTOR_VALUE`; the percom block and the file handle are left out. -/
structure DiskTypeATR where
  _disktype : disktype_t
  _sectorSize : Nat
  _numSectors : Nat
  _imageSize : Nat
  _lastSectorUsed : Option Nat
  deriving DecidableEq, Repr

/-- A file as the C library shows it: the bytes stored so far, the position
of the next read or write, and the largest size the medium can hold. -/
structure FILE where
  data : List Nat
  pos : Nat
  capacity : Nat
  deriving DecidableEq, Repr

namespace DiskTypeATR

/-- The constant `ATR_MAGIC_HEADER`, the sum of the bytes of NICKATARI. -/
def ATR_MAGIC_HEADER : Nat := 0x0296

/-- Modelled from the spec: the helper `LOBYTE_FROM_UINT16` of `utils.h`, which
is not among the sources and which the spec does not describe; it is taken
to be the low byte, as its name and the header layout above `mount` say. -/
def LOBYTE_FROM_UINT16 (value : Nat) : Nat := value % 256

/-- Modelled from the spec: the helper `HIBYTE_FROM_UINT16` of `utils.h`, which
is not among the sources and which the spec does not describe; it is taken
to be the second byte, as its name and the header layout above `mount` say. -/
def HIBYTE_FROM_UINT16 (value : Nat) : Nat := value / 256 % 256

/-- Modelled from the spec: the helper `UINT16_FROM_HILOBYTES` of `utils.h`,
which is not among the sources and which the spec does not describe; it is
taken to be the 16-bit value with the given high and low byte. -/
def UINT16_FROM_HILOBYTES (high low : Nat) : Nat := (high * 256 + low) % 65536

/-- Member `DiskTypeATR::_sector_to_offset`, with `sectorNum` a `uint16_t` and
the result a `uint32_t`. -/
def _sector_to_offset (d : DiskTypeATR) (sectorNum : Nat) : Nat :=
  let offset := 0
  let offset := if sectorNum > 0 then d._sectorSize * (sectorNum - 1) % 2 ^ 32 else offset
  let offset := (offset + 16) % 2 ^ 32
  let offset :=
    if d._sectorSize = 256 ∧ sectorNum > 3 then (offset + 2 ^ 32 - 384) % 2 ^ 32 else offset
  offset

/-- Member `DiskTypeATR::sector_size`. -/
def sector_size (d : DiskTypeATR) (sectornum : Nat) : Nat :=
  if sectornum ≤ 3 then 128 else d._sectorSize

/-- The offset that the sizes give: the 16-byte header and then the sectors
`1, 2, ..., sectorNum - 1` one after the other, each of its `sector_size`. -/
def layout_offset (d : DiskTypeATR) (sectorNum : Nat) : Nat :=
  16 + ((List.range (sectorNum - 1)).map (fun i => sector_size d (i + 1))).sum

/-- The call `fseek(f, offset, SEEK_SET)`. -/
def fseek (f : FILE) (offset : Nat) : FILE :=
  { f with pos := offset }

/-- The call `fwrite(bytes, 1, n, f)`: the bytes that fit below the capacity
are stored at the position, after zeros for any gap that a seek past the end
left, and their number is returned; when no byte fits the file is as it
was. -/
def fwrite (f : FILE) (bytes : List Nat) : Nat × FILE :=
  let out := bytes.take (f.capacity - f.pos)
  if out.length = 0 then (0, f)
  else
    (out.length,
      { f with
        data := f.data.take f.pos ++ List.replicate (f.pos - f.data.length) 0 ++ out ++
          f.data.drop (f.pos + out.length)
        pos := f.pos + out.length })

/-- The local `atrHeader` of `DiskTypeATR::create` when it is written: 16
bytes in the order of the struct members. -/
def atr_header (sectorSize numSectors : Nat) : List Nat :=
  let total_size := numSectors * sectorSize % 2 ^ 32
  let total_size := if sectorSize > 128 then (total_size + 2 ^ 32 - 384) % 2 ^ 32 else total_size
  let num_paragraphs := total_size / 16
  [LOBYTE_FROM_UINT16 ATR_MAGIC_HEADER, HIBYTE_FROM_UINT16 ATR_MAGIC_HEADER,
   LOBYTE_FROM_UINT16 num_paragraphs, HIBYTE_FROM_UINT16 num_paragraphs,
   LOBYTE_FROM_UINT16 sectorSize, HIBYTE_FROM_UINT16 sectorSize,
   ((num_paragraphs &&& 0xFF0000) >>> 16) % 256,
   0, 0, 0, 0, 0, 0, 0, 0, 0]

/-- The first `n` bytes that a write takes from the 256-byte array `blank`
of `DiskTypeATR::create`: the array holds zeros, and a read at an index from
256 on is outside the array and yields the byte `beyond (i - 256)` that lies
behind it. -/
def blank_bytes (beyond : Nat → Nat) (n : Nat) : List Nat :=
  (List.range n).map (fun i => if i < 256 then 0 else beyond (i - 256))

/-- The loop of `DiskTypeATR::create` that writes the first three 128-byte
sectors, with `i` iterations to go. `Except.error` is the `return false`
after a short write and carries the file as that write left it, with the
sectors written before it; otherwise the file, `offset` and `numSectors`
after the loop. -/
def create_first_sectors : Nat → FILE → Nat → Nat → Except FILE (FILE × Nat × Nat)
  | 0, f, offset, numSectors => Except.ok (f, offset, numSectors)
  | i + 1, f, offset, numSectors =>
    let written := fwrite f (List.replicate 128 0)
    if written.1 ≠ 128 then Except.error written.2
    else create_first_sectors i written.2 ((offset + 128) % 2 ^ 32)
      ((numSectors + 65535) % 65536)

/-- Member `DiskTypeATR::create`; the result is the returned `bool` and the
file as the call left it. The last write takes `sectorSize` bytes from the
256-byte array `blank`; for a `sectorSize` above 256 it reads past the array
and writes the bytes `beyond` that lie behind it. -/
def create (beyond : Nat → Nat) (f : FILE) (sectorSize numSectors : Nat) : Bool × FILE :=
  let written := fwrite f (atr_header sectorSize numSectors)
  let offset := written.1
  match create_first_sectors 3 written.2 offset numSectors with
  | Except.error f1 => (false, f1)
  | Except.ok (f1, offset, numSectors) =>
    let offset := (offset + numSectors * sectorSize + 2 ^ 32 - sectorSize) % 2 ^ 32
    let f2 := fseek f1 offset
    let last := fwrite f2 (blank_bytes beyond sectorSize)
    if last.1 ≠ sectorSize then (false, last.2)
    else (true, last.2)

/-- Member `DiskTypeATR::mount` on the bytes of the file; `fseek` to the start
succeeds and `fread` gives the first seven bytes, fewer when the file is
shorter. The call of `derive_percom_block` is left out. A header whose sector
size is 0 makes the division fail: that case has no result here (`none`). -/
def mount (f : List Nat) (disksize : Nat) (d : DiskTypeATR) : Option DiskTypeATR :=
  let d := { d with _disktype := disktype_t.DISKTYPE_UNKNOWN }
  match f.take 7 with
  | [b0, b1, b2, b3, b4, b5, b6] =>
    if UINT16_FROM_HILOBYTES b1 b0 ≠ ATR_MAGIC_HEADER then some d
    else
      let num_bytes_sector := UINT16_FROM_HILOBYTES b5 b4
      let num_paragraphs := UINT16_FROM_HILOBYTES b3 b2
      let num_paragraphs := num_paragraphs ||| (b6 <<< 16)
      let d := { d with _sectorSize := num_bytes_sector }
      if num_bytes_sector = 0 then none
      else
        let d := { d with _numSectors := num_paragraphs * 16 % 2 ^ 32 / num_bytes_sector }
        let d :=
          if num_bytes_sector = 256 then { d with _numSectors := d._numSectors + 2 } else d
        some { d with
          _imageSize := disksize
          _lastSectorUsed := none
          _disktype := disktype_t.DISKTYPE_ATR }
  | _ => some d

/-- A disk object before `mount`. -/
def unmounted : DiskTypeATR :=
  { _disktype := disktype_t.DISKTYPE_UNKNOWN, _sectorSize := 128, _numSectors := 0,
    _imageSize := 0, _lastSectorUsed := none }

/-- A mounted double-density disk of 720 sectors. -/
def double_density : DiskTypeATR :=
  { _disktype := disktype_t.DISKTYPE_ATR, _sectorSize := 256, _numSectors := 720,
    _imageSize := 184720, _lastSectorUsed := none }

/-- An empty file on a medium of the given capacity. -/
def empty_file (capacity : Nat) : FILE :=
  { data := [], pos := 0, capacity := capacity }

end DiskTypeATR

namespace IwmSlip

variable {Req Resp : Type}

/-! ## Lemmas and theorems -/

theorem special_lookup_some (P : Platform Req) (r : RawRequest) (h : SpecialHandler)
    (hs : special_lookup P r = some h) :
    r = [P.reboot_sequence.1, P.reboot_sequence.2.1, P.reboot_sequence.2.2.1,
      P.reboot_sequence.2.2.2] ∧ h = SpecialHandler.reboot := by
  rcases r with _ | ⟨b0, _ | ⟨b1, _ | ⟨b2, _ | ⟨b3, _ | ⟨b4, t⟩⟩⟩⟩⟩ <;>
    simp [special_lookup] at hs
  simp only [special_handlers_find, special_handlers, List.find?] at hs
  by_cases hk : P.reboot_sequence = (b0, b1, b2, b3)
  · simp [hk] at hs
    simp [hk, hs]
  · simp [hk] at hs

theorem special_lookup_of_length (P : Platform Req) (r : RawRequest) (hl : r.length ≠ 4) :
    special_lookup P r = none := by
  rcases r with _ | ⟨b0, _ | ⟨b1, _ | ⟨b2, _ | ⟨b3, _ | ⟨b4, t⟩⟩⟩⟩⟩ <;>
    simp [special_lookup] at hl ⊢

theorem std_fill_zero_eq (data : List Byte) :
    std_fill_zero data = List.replicate data.length 0 := by
  induction data with
  | nil => rfl
  | cons a t ih =>
    simp only [std_fill_zero, List.map_cons, List.length_cons, List.replicate_succ] at ih ⊢
    rw [ih]

theorem std_copy_eight (beyond : Nat → Byte) (v : RawRequest) (data : List Byte) (oob : Nat)
    (hv : 8 ≤ v.length) (hd : 8 ≤ data.length) :
    std_copy beyond v 0 8 (data, oob) = (v.take 8 ++ data.drop 8, oob) := by
  rcases v with _ | ⟨a0, _ | ⟨a1, _ | ⟨a2, _ | ⟨a3, _ | ⟨a4, _ | ⟨a5, _ | ⟨a6, _ | ⟨a7, t⟩⟩⟩⟩⟩⟩⟩⟩ <;>
    simp at hv
  rcases data with _ | ⟨d0, _ | ⟨d1, _ | ⟨d2, _ | ⟨d3, _ | ⟨d4, _ | ⟨d5, _ | ⟨d6, _ | ⟨d7, u⟩⟩⟩⟩⟩⟩⟩⟩ <;>
    simp at hd
  simp [std_copy]

/-- what a poll does with a buffer that is not special -/
theorem iwm_phase_vector_normal (P : Platform Req) (w : World) (s : iwm_slip Req Resp)
    (r : RawRequest) (rest : List RawRequest) (hq : s.request_queue_ = r :: rest)
    (hn : special_lookup P r = none) :
    iwm_phase_vector P w s = Except.ok (PHASE_ENABLE,
      { s with
        request_queue_ := rest
        current_request := some (P.from_packet r)
        command_packet_data :=
          (std_copy P.beyond r 0 8 (std_fill_zero s.command_packet_data, s.oob_reads)).1
        oob_reads :=
          (std_copy P.beyond r 0 8 (std_fill_zero s.command_packet_data, s.oob_reads)).2
        sp_command_mode := sp_cmd_state_t.command }, w) := by
  simp [iwm_phase_vector, hq, hn]

theorem iwm_phase_vector_special (P : Platform Req) (w : World) (s : iwm_slip Req Resp)
    (r : RawRequest) (rest : List RawRequest) (h : SpecialHandler)
    (hq : s.request_queue_ = r :: rest) (hs : special_lookup P r = some h) :
    iwm_phase_vector P w s = h.call w { s with request_queue_ := rest } := by
  simp [iwm_phase_vector, hq, hs]

theorem end_request_thread_ok (s : iwm_slip Req Resp) (c : Connection)
    (hc : s.connection_ = some c) :
    end_request_thread s = Except.ok
      { s with
        is_responding_ := false
        connection_ := some { sock := c.sock, is_connected := false, read_channel := false }
        connection_sock := 0
        request_thread_ := false
        closed := if s.connection_sock = 0 then s.closed else s.closed ++ [s.connection_sock] } := by
  cases s
  simp only at hc
  subst hc
  simp only [end_request_thread, close_connection, Connection.set_is_connected, Connection.join]
  split_ifs <;> simp_all

theorem connect_to_server_fails (a : Attempt) (s : iwm_slip Req Resp)
    (ha : a.succeeds = false) :
    (a.sock = 0 ∧ connect_to_server a s = Except.error Stop.runtime_error) ∨
      (a.sock ≠ 0 ∧ connect_to_server a s =
        Except.ok (false, { s with closed := s.closed ++ [a.sock] })) := by
  by_cases h0 : a.sock = 0
  · left
    simp [connect_to_server, h0]
  · right
    have hrc : a.connect_rc < 0 := by
      simpa [Attempt.succeeds, h0] using ha
    simp [connect_to_server, h0, hrc, close_connection]

theorem connect_to_server_succeeds (a : Attempt) (s : iwm_slip Req Resp)
    (ha : a.succeeds = true) (ht : s.request_thread_ = false) :
    connect_to_server a s = Except.ok (true,
      { s with
        connection_sock := a.sock
        connection_ := some { sock := a.sock, is_connected := true, read_channel := true }
        is_responding_ := true
        request_thread_ := true }) := by
  have h0 : a.sock ≠ 0 := by
    intro h
    simp [Attempt.succeeds, h] at ha
  have hrc : ¬ a.connect_rc < 0 := by
    intro h
    simp [Attempt.succeeds, h] at ha
  simp [connect_to_server, h0, hrc, ht, Connection.set_is_connected,
    Connection.create_read_channel]

theorem closed_by_cons_zero (a : Attempt) (fails : List Attempt) (h : a.sock = 0) :
    closed_by (a :: fails) = closed_by fails := by
  simp [closed_by, List.filter_cons, h]

theorem closed_by_cons_ne (a : Attempt) (fails : List Attempt) (h : a.sock ≠ 0) :
    closed_by (a :: fails) = a.sock :: closed_by fails := by
  simp [closed_by, List.filter_cons, h]

theorem setup_spi_loop_ok (fails : List Attempt) (a : Attempt) (more : List Attempt) :
    ∀ s : iwm_slip Req Resp, (∀ b ∈ fails, b.succeeds = false) → a.succeeds = true →
      s.request_thread_ = false →
      setup_spi_loop (fails ++ a :: more) s = Except.ok
        ({ s with
          connection_sock := a.sock
          connection_ := some { sock := a.sock, is_connected := true, read_channel := true }
          is_responding_ := true
          request_thread_ := true
          closed := s.closed ++ closed_by fails }, more) := by
  induction fails with
  | nil =>
    intro s _ ha ht
    simp [setup_spi_loop, connect_to_server_succeeds a s ha ht, closed_by]
  | cons b fails ih =>
    intro s hf ha ht
    have hb : b.succeeds = false := hf b (List.mem_cons_self _ _)
    have hf2 : ∀ x ∈ fails, x.succeeds = false := fun x hx => hf x (List.mem_cons_of_mem _ hx)
    rcases connect_to_server_fails b s hb with ⟨h0, hcs⟩ | ⟨h0, hcs⟩
    · rw [List.cons_append, setup_spi_loop, hcs]
      simp only
      rw [ih s hf2 ha ht, closed_by_cons_zero b fails h0]
    · rw [List.cons_append, setup_spi_loop, hcs]
      simp only
      rw [ih _ hf2 ha (by simpa using ht), closed_by_cons_ne b fails h0]
      simp

theorem exists_first_success (l : List Attempt) (h : ∃ a ∈ l, a.succeeds = true) :
    ∃ fails a more, l = fails ++ a :: more ∧ (∀ b ∈ fails, b.succeeds = false) ∧
      a.succeeds = true := by
  induction l with
  | nil => simp at h
  | cons x t ih =>
    by_cases hx : x.succeeds = true
    · exact ⟨[], x, t, by simp, by simp, hx⟩
    · have ht : ∃ a ∈ t, a.succeeds = true := by
        obtain ⟨a, ha, has⟩ := h
        rcases List.mem_cons.mp ha with rfl | ha
        · exact absurd has hx
        · exact ⟨a, ha, has⟩
      obtain ⟨fails, a, more, hl, hf, ha⟩ := ih ht
      refine ⟨x :: fails, a, more, by simp [hl], ?_, ha⟩
      intro b hb
      rcases List.mem_cons.mp hb with rfl | hb
      · simpa using hx
      · exact hf b hb

/-- the reboot handler on a bridge that has a connection, on a network where
the host resolves and the attempts fail until `a` succeeds -/
theorem reboot_ok (w : World) (s : iwm_slip Req Resp) (c : Connection)
    (fails : List Attempt) (a : Attempt) (more : List Attempt)
    (hc : s.connection_ = some c) (hip : w.host_ip ≠ IPADDR_NONE)
    (hw : w.attempts = fails ++ a :: more) (hf : ∀ b ∈ fails, b.succeeds = false)
    (ha : a.succeeds = true) (hrl : w.receiver_at_lock = false) :
    reboot w s = Except.ok (PHASE_RESET,
      { s with
        connection_sock := a.sock
        connection_ := some { sock := a.sock, is_connected := true, read_channel := true }
        is_responding_ := true
        request_thread_ := true
        closed := (if s.connection_sock = 0 then s.closed else s.closed ++ [s.connection_sock])
          ++ closed_by fails },
      { w with attempts := more }) := by
  simp only [reboot]
  rw [end_request_thread_ok _ c (by simpa using hc)]
  simp only [hrl, Bool.false_eq_true, false_and, if_false, setup_spi, hip, hw]
  rw [setup_spi_loop_ok fails a more _ hf ha (by simp)]

/-- whatever the reboot handler returns, it returns RESET and leaves the bus
side of the bridge alone -/
theorem setup_spi_loop_frame (l : List Attempt) :
    ∀ (s t : iwm_slip Req Resp) (rest : List Attempt),
      setup_spi_loop l s = Except.ok (t, rest) → same_bus_side s t := by
  induction l with
  | nil => intro s t rest h; simp [setup_spi_loop] at h
  | cons b l ih =>
    intro s t rest h
    by_cases hb : b.succeeds = true
    · by_cases ht : s.request_thread_ = false
      · rw [setup_spi_loop, connect_to_server_succeeds b s hb ht] at h
        simp only [Except.ok.injEq, Prod.mk.injEq] at h
        obtain ⟨rfl, -⟩ := h
        simp [same_bus_side]
      · have h0 : b.sock ≠ 0 := by
          intro h; simp [Attempt.succeeds, h] at hb
        have hrc : ¬ b.connect_rc < 0 := by
          intro h; simp [Attempt.succeeds, h] at hb
        simp [setup_spi_loop, connect_to_server, h0, hrc, ht] at h
    · rcases connect_to_server_fails b s (by simpa using hb) with ⟨_, hcs⟩ | ⟨_, hcs⟩
      · rw [setup_spi_loop, hcs] at h
        exact ih s t rest h
      · rw [setup_spi_loop, hcs] at h
        have := ih _ t rest h
        simpa [same_bus_side] using this

theorem setup_spi_frame (w w1 : World) (s t : iwm_slip Req Resp)
    (h : setup_spi w s = Except.ok (t, w1)) : same_bus_side s t := by
  simp only [setup_spi] at h
  split_ifs at h
  cases hl : setup_spi_loop w.attempts s with
  | error e => simp [hl] at h
  | ok p =>
    obtain ⟨s1, rest⟩ := p
    simp only [hl, Except.ok.injEq, Prod.mk.injEq] at h
    obtain ⟨rfl, -⟩ := h
    exact setup_spi_loop_frame _ _ _ _ hl

theorem end_request_thread_frame (s t : iwm_slip Req Resp)
    (h : end_request_thread s = Except.ok t) : same_bus_side s t := by
  cases hc : s.connection_ with
  | none => simp [end_request_thread, hc] at h
  | some c =>
    rw [end_request_thread_ok s c hc] at h
    simp only [Except.ok.injEq] at h
    subst h
    simp [same_bus_side]

/-- a reboot that returns did not meet the receiver at the mutex; its result
is RESET with the state that `setup_spi` left after `end_request_thread` -/
theorem reboot_returns (w w1 : World) (s t : iwm_slip Req Resp) (ph : Byte)
    (h : reboot w s = Except.ok (ph, t, w1)) :
    ph = PHASE_RESET ∧ ¬ (w.receiver_at_lock = true ∧ s.request_thread_ = true) ∧
      ∃ s2, end_request_thread { s with is_responding_ := false } = Except.ok s2 ∧
        setup_spi w s2 = Except.ok (t, w1) := by
  simp only [reboot] at h
  cases h1 : end_request_thread { s with is_responding_ := false } with
  | error e => simp [h1] at h
  | ok s2 =>
    simp only [h1] at h
    split_ifs at h with hd
    cases h2 : setup_spi w s2 with
    | error e => simp [h2] at h
    | ok p =>
      obtain ⟨s3, w2⟩ := p
      simp only [h2, Except.ok.injEq, Prod.mk.injEq] at h
      obtain ⟨rfl, rfl, rfl⟩ := h
      exact ⟨rfl, hd, s2, rfl, h2⟩

theorem reboot_frame (w w1 : World) (s t : iwm_slip Req Resp) (ph : Byte)
    (h : reboot w s = Except.ok (ph, t, w1)) :
    ph = PHASE_RESET ∧ same_bus_side s t := by
  obtain ⟨hph, -, s2, h1, h2⟩ := reboot_returns w w1 s t ph h
  cases hph
  cases hx : Except.ok (ε := Stop) (t, w1) with
  | error e => cases hx
  | ok p =>
      obtain ⟨s3, w2⟩ := p
      simp only [Except.ok.injEq, Prod.mk.injEq] at hx
      obtain ⟨rfl, rfl⟩ := hx
      have f1 := end_request_thread_frame _ _ h1
      have f2 := setup_spi_frame _ _ _ _ h2
      obtain ⟨a1, a2, a3, a4, a5, a6⟩ := f1
      obtain ⟨b1, b2, b3, b4, b5, b6⟩ := f2
      exact ⟨rfl, b1.trans a1, b2.trans a2, b3.trans a3, b4.trans a4, b5.trans a5, b6.trans a6⟩

theorem setup_spi_loop_connected (l : List Attempt) :
    ∀ (s t : iwm_slip Req Resp) (rest : List Attempt),
      setup_spi_loop l s = Except.ok (t, rest) →
        t.is_responding_ = true ∧ t.connection_ ≠ none ∧ rest.length < l.length := by
  induction l with
  | nil => intro s t rest h; simp [setup_spi_loop] at h
  | cons b l ih =>
    intro s t rest h
    by_cases hb : b.succeeds = true
    · by_cases ht : s.request_thread_ = false
      · rw [setup_spi_loop, connect_to_server_succeeds b s hb ht] at h
        simp only [Except.ok.injEq, Prod.mk.injEq] at h
        obtain ⟨rfl, rfl⟩ := h
        simp
      · have h0 : b.sock ≠ 0 := by
          intro h; simp [Attempt.succeeds, h] at hb
        have hrc : ¬ b.connect_rc < 0 := by
          intro h; simp [Attempt.succeeds, h] at hb
        simp [setup_spi_loop, connect_to_server, h0, hrc, ht] at h
    · rcases connect_to_server_fails b s (by simpa using hb) with ⟨_, hcs⟩ | ⟨_, hcs⟩
      · rw [setup_spi_loop, hcs] at h
        obtain ⟨h1, h2, h3⟩ := ih s t rest h
        exact ⟨h1, h2, by simp only [List.length_cons]; omega⟩
      · rw [setup_spi_loop, hcs] at h
        obtain ⟨h1, h2, h3⟩ := ih _ t rest h
        exact ⟨h1, h2, by simp only [List.length_cons]; omega⟩

theorem reboot_connected (w w1 : World) (s t : iwm_slip Req Resp) (ph : Byte)
    (h : reboot w s = Except.ok (ph, t, w1)) :
    t.is_responding_ = true ∧ t.connection_ ≠ none := by
  obtain ⟨-, -, s2, -, h2⟩ := reboot_returns w w1 s t ph h
  simp only [setup_spi] at h2
  split_ifs at h2
  cases hl : setup_spi_loop w.attempts s2 with
  | error e => simp [hl] at h2
  | ok p =>
    obtain ⟨s3, rest⟩ := p
    simp only [hl, Except.ok.injEq, Prod.mk.injEq] at h2
    obtain ⟨rfl, -⟩ := h2
    obtain ⟨a, b, -⟩ := setup_spi_loop_connected _ _ _ _ hl
    exact ⟨a, b⟩

/-- a poll on a non-empty queue that returns has removed the front buffer and
nothing else, and leaves a responding bridge responding -/
theorem iwm_phase_vector_pop (P : Platform Req) (w w1 : World) (s t : iwm_slip Req Resp)
    (r : RawRequest) (rest : List RawRequest) (ph : Byte)
    (hq : s.request_queue_ = r :: rest)
    (h : iwm_phase_vector P w s = Except.ok (ph, t, w1)) :
    t.request_queue_ = rest ∧ (s.is_responding_ = true → t.is_responding_ = true) := by
  cases hs : special_lookup P r with
  | none =>
    rw [iwm_phase_vector_normal P w s r rest hq hs] at h
    simp only [Except.ok.injEq, Prod.mk.injEq] at h
    obtain ⟨-, rfl, -⟩ := h
    simp
  | some hd =>
    rw [iwm_phase_vector_special P w s r rest hd hq hs] at h
    cases hd
    simp only [SpecialHandler.call] at h
    obtain ⟨-, hf, -⟩ := reboot_frame _ _ _ _ _ h
    exact ⟨by simpa using hf, fun _ => (reboot_connected _ _ _ _ _ h).1⟩

theorem run_fifo (P : Platform Req) (evs : List Event) :
    ∀ (w w1 : World) (s t : iwm_slip Req Resp) (consumed : List RawRequest),
      s.is_responding_ = true → run P evs w s = Except.ok (consumed, t, w1) →
        consumed ++ t.request_queue_ = s.request_queue_ ++ pushed evs ∧
          consumed.length ≤ poll_count evs := by
  induction evs with
  | nil =>
    intro w w1 s t consumed _ h
    simp only [run, Except.ok.injEq, Prod.mk.injEq] at h
    obtain ⟨rfl, rfl, -⟩ := h
    simp [pushed, poll_count]
  | cons ev evs ih =>
    intro w w1 s t consumed hr h
    cases ev with
    | receive d =>
      simp only [run, wait_for_requests, hr, if_true] at h
      cases hc : s.connection_ with
      | none => simp [hc] at h
      | some c =>
        simp only [hc] at h
        by_cases hd : d.isEmpty = true
        · simp only [wait_for_requests_body, hd, if_true] at h
          obtain ⟨h1, h2⟩ := ih w w1 s t consumed hr h
          simp only [pushed, hd, if_true, poll_count]
          exact ⟨h1, h2⟩
        · simp only [wait_for_requests_body, hd] at h
          obtain ⟨h1, h2⟩ := ih w w1 _ t consumed (by simpa using hr) h
          simp only [pushed, hd, poll_count]
          refine ⟨?_, h2⟩
          simpa using h1
    | poll =>
      simp only [run] at h
      cases hp : iwm_phase_vector P w s with
      | error e => simp [hp] at h
      | ok p =>
        obtain ⟨ph, s1, w2⟩ := p
        simp only [hp] at h
        cases hrun : run P evs w2 s1 with
        | error e => simp [hrun] at h
        | ok q =>
          obtain ⟨c2, s2, w3⟩ := q
          simp only [hrun, Except.ok.injEq, Prod.mk.injEq] at h
          obtain ⟨rfl, rfl, rfl⟩ := h
          cases hq : s.request_queue_ with
          | nil =>
            simp only [iwm_phase_vector, hq, Except.ok.injEq, Prod.mk.injEq] at hp
            obtain ⟨-, rfl, rfl⟩ := hp
            obtain ⟨h1, h2⟩ := ih w w3 _ s2 c2 (by simpa using hr) hrun
            simp only [pushed, poll_count, List.head?_nil, Option.toList, List.nil_append]
            refine ⟨?_, by omega⟩
            simpa [hq] using h1
          | cons r rest =>
            obtain ⟨hrest, hresp⟩ := iwm_phase_vector_pop P w w2 s s1 r rest ph hq hp
            obtain ⟨h1, h2⟩ := ih w2 w3 s1 s2 c2 (hresp hr) hrun
            simp only [pushed, poll_count, List.head?_cons, Option.toList, List.cons_append,
              List.nil_append, List.length_cons]
            refine ⟨?_, by omega⟩
            rw [h1, hrest]

theorem run_polls (P : Platform Req) (n : Nat) :
    ∀ (w w1 : World) (s t : iwm_slip Req Resp) (consumed : List RawRequest),
      run P (List.replicate n Event.poll) w s = Except.ok (consumed, t, w1) →
        consumed = s.request_queue_.take n ∧ t.request_queue_ = s.request_queue_.drop n := by
  induction n with
  | zero =>
    intro w w1 s t consumed h
    simp only [List.replicate, run, Except.ok.injEq, Prod.mk.injEq] at h
    obtain ⟨rfl, rfl, -⟩ := h
    simp
  | succ n ih =>
    intro w w1 s t consumed h
    simp only [List.replicate, run] at h
    cases hp : iwm_phase_vector P w s with
    | error e => simp [hp] at h
    | ok p =>
      obtain ⟨ph, s1, w2⟩ := p
      simp only [hp] at h
      cases hrun : run P (List.replicate n Event.poll) w2 s1 with
      | error e => simp [hrun] at h
      | ok q =>
        obtain ⟨c2, s2, w3⟩ := q
        simp only [hrun, Except.ok.injEq, Prod.mk.injEq] at h
        obtain ⟨rfl, rfl, rfl⟩ := h
        obtain ⟨h1, h2⟩ := ih w2 w3 s1 s2 c2 hrun
        cases hq : s.request_queue_ with
        | nil =>
          simp only [iwm_phase_vector, hq, Except.ok.injEq, Prod.mk.injEq] at hp
          obtain ⟨-, rfl, rfl⟩ := hp
          simp only at h1 h2
          simp [h1, h2, hq]
        | cons r rest =>
          obtain ⟨hrest, -⟩ := iwm_phase_vector_pop P w w2 s s1 r rest ph hq hp
          simp [h1, h2, hrest]

theorem special_lookup_none_of_no_entry (P : Platform Req) (b0 b1 b2 b3 : Byte)
    (hk : ∀ e ∈ special_handlers P, e.1 ≠ (b0, b1, b2, b3)) :
    special_lookup P [b0, b1, b2, b3] = none := by
  cases hs : special_lookup P [b0, b1, b2, b3] with
  | none => rfl
  | some h =>
    obtain ⟨hr, -⟩ := special_lookup_some P _ h hs
    have hmem : (P.reboot_sequence, SpecialHandler.reboot) ∈ special_handlers P := by
      simp [special_handlers]
    have hne := hk _ hmem
    simp only [List.cons.injEq, and_true] at hr
    obtain ⟨e0, e1, e2, e3⟩ := hr
    exact absurd (by simp [Prod.ext_iff, e0, e1, e2, e3]) hne

theorem iwm_phase_vector_returns (P : Platform Req) (w : World) (s : iwm_slip Req Resp)
    (hc : s.connection_ ≠ none) (hip : w.host_ip ≠ IPADDR_NONE)
    (hall : ∀ a ∈ w.attempts, a.succeeds = true) (hne : w.attempts ≠ [])
    (hrl : w.receiver_at_lock = false) :
    ∃ ph t w1, iwm_phase_vector P w s = Except.ok (ph, t, w1) ∧ t.connection_ ≠ none ∧
      w1.host_ip = w.host_ip ∧ (∀ a ∈ w1.attempts, a.succeeds = true) ∧
      w.attempts.length ≤ w1.attempts.length + 1 ∧ w1.receiver_at_lock = false := by
  cases hq : s.request_queue_ with
  | nil =>
    exact ⟨PHASE_IDLE, { s with sp_command_mode := sp_cmd_state_t.standby }, w,
      by simp [iwm_phase_vector, hq], by simpa using hc, rfl, hall, by omega, hrl⟩
  | cons r rest =>
    cases hs : special_lookup P r with
    | none =>
      exact ⟨_, _, w, iwm_phase_vector_normal P w s r rest hq hs, by simpa using hc, rfl, hall,
        by omega, hrl⟩
    | some hd =>
      cases hd
      obtain ⟨c, hc2⟩ : ∃ c, s.connection_ = some c := by
        cases hx : s.connection_ with
        | none => exact absurd hx hc
        | some c => exact ⟨c, rfl⟩
      cases hw : w.attempts with
      | nil => exact absurd hw hne
      | cons a more =>
        have ha : a.succeeds = true := hall a (by simp [hw])
        have hr := reboot_ok w { s with request_queue_ := rest } c [] a more
          (by simpa using hc2) hip (by simpa using hw) (by simp) ha hrl
        have hp := (iwm_phase_vector_special P w s r rest _ hq hs).trans hr
        exact ⟨_, _, _, hp, by simp, rfl,
          fun x hx => hall x (by rw [hw]; exact List.mem_cons_of_mem _ hx), by simp, hrl⟩

theorem run_returns (P : Platform Req) (evs : List Event) :
    ∀ (w : World) (s : iwm_slip Req Resp), s.connection_ ≠ none → w.host_ip ≠ IPADDR_NONE →
      (∀ a ∈ w.attempts, a.succeeds = true) → poll_count evs ≤ w.attempts.length →
      w.receiver_at_lock = false →
      ∃ consumed t w1, run P evs w s = Except.ok (consumed, t, w1) := by
  induction evs with
  | nil => intro w s _ _ _ _ _; exact ⟨_, _, _, rfl⟩
  | cons ev evs ih =>
    intro w s hc hip hall hn hrl
    cases ev with
    | receive d =>
      obtain ⟨c, hc2⟩ : ∃ c, s.connection_ = some c := by
        cases hx : s.connection_ with
        | none => exact absurd hx hc
        | some c => exact ⟨c, rfl⟩
      have hn2 : poll_count evs ≤ w.attempts.length := by simpa [poll_count] using hn
      simp only [run, wait_for_requests, hc2]
      split_ifs
      · refine ih w _ ?_ hip hall hn2 hrl
        simp only [wait_for_requests_body]
        split_ifs <;> simp [hc2]
      · exact ih w s hc hip hall hn2 hrl
    | poll =>
      simp only [poll_count] at hn
      have hne : w.attempts ≠ [] := by
        intro h
        simp [h] at hn
      obtain ⟨ph, t, w1, hp, hc1, hip1, hall1, hlen, hrl1⟩ :=
        iwm_phase_vector_returns P w s hc hip hall hne hrl
      obtain ⟨c2, t2, w2, hr⟩ := ih w1 t hc1 (by rw [hip1]; exact hip) hall1 (by omega) hrl1
      exact ⟨s.request_queue_.head?.toList ++ c2, t2, w2, by simp only [run, hp, hr]⟩

/-- C1. The request queue is first in, first out: a poll that finds the queue
`r :: rest` and returns leaves exactly `rest`; along every schedule of
receptions and polls run on a responding bridge, the buffers the polls
consumed followed by the buffers still queued are the buffers queued at the
start followed by the pushed frames in arrival order, at most one per poll;
`n` polls in a row consume the first `n` queued buffers and leave the others
in order; and on a network where the host resolves and the attempts succeed,
one for each poll, and where the receiver thread does not stand before the
queue mutex when a reboot joins it, every schedule does run to its end. -/
theorem C1_polls_drain_fifo (P : Platform Req) (w : World) (s : iwm_slip Req Resp)
    (evs : List Event) (hresp : s.is_responding_ = true) :
    (∀ r rest ph t w1, s.request_queue_ = r :: rest →
        iwm_phase_vector P w s = Except.ok (ph, t, w1) → t.request_queue_ = rest) ∧
    (∀ consumed t w1, run P evs w s = Except.ok (consumed, t, w1) →
        consumed ++ t.request_queue_ = s.request_queue_ ++ pushed evs ∧
        consumed.length ≤ poll_count evs) ∧
    (∀ n consumed t w1,
        run P (List.replicate n Event.poll) w s = Except.ok (consumed, t, w1) →
        consumed = s.request_queue_.take n ∧ t.request_queue_ = s.request_queue_.drop n) ∧
    (s.connection_ ≠ none → w.host_ip ≠ IPADDR_NONE →
        (∀ a ∈ w.attempts, a.succeeds = true) → poll_count evs ≤ w.attempts.length →
        w.receiver_at_lock = false →
        ∃ consumed t w1, run P evs w s = Except.ok (consumed, t, w1)) := by
  refine ⟨?_, ?_, ?_, ?_⟩
  · intro r rest ph t w1 hq h
    exact (iwm_phase_vector_pop P w w1 s t r rest ph hq h).1
  · intro consumed t w1 h
    exact run_fifo P evs w w1 s t consumed hresp h
  · intro n consumed t w1 h
    exact run_polls P n w w1 s t consumed h
  · intro hc hip hall hn hrl
    exact run_returns P evs w s hc hip hall hn hrl

/-- C2. A popped buffer that the special command table knows (so one of
exactly four bytes, the reboot sequence) is given to the bound handler, whose
result is the result of the poll; whenever the poll returns it returns the
RESET code `0b0101` and the current Request, the staged command buffer, the
command mode and the over-read count are what they were, so the normal
decode was not reached; and the poll does return when the bridge has a
connection, the host resolves, some connect attempt succeeds and the
receiver thread does not stand before the queue mutex when it is joined. -/
theorem C2_special_sequence_runs_handler (P : Platform Req) (w : World)
    (s : iwm_slip Req Resp) (r : RawRequest) (rest : List RawRequest) (h : SpecialHandler)
    (hq : s.request_queue_ = r :: rest) (hs : special_lookup P r = some h) :
    r.length = 4 ∧ h = SpecialHandler.reboot ∧
    iwm_phase_vector P w s = h.call w { s with request_queue_ := rest } ∧
    h.call w { s with request_queue_ := rest } = reboot w { s with request_queue_ := rest } ∧
    (∀ ph t w1, iwm_phase_vector P w s = Except.ok (ph, t, w1) →
        ph = PHASE_RESET ∧ t.current_request = s.current_request ∧
        t.command_packet_data = s.command_packet_data ∧
        t.sp_command_mode = s.sp_command_mode ∧ t.oob_reads = s.oob_reads) ∧
    (s.connection_ ≠ none → w.host_ip ≠ IPADDR_NONE →
        (∃ a ∈ w.attempts, a.succeeds = true) → w.receiver_at_lock = false →
        ∃ t w1, iwm_phase_vector P w s = Except.ok (PHASE_RESET, t, w1)) ∧
    PHASE_RESET = 0b0101 := by
  obtain ⟨hr, hh⟩ := special_lookup_some P r h hs
  have hcall := iwm_phase_vector_special P w s r rest h hq hs
  subst hh
  refine ⟨by rw [hr]; rfl, rfl, hcall, rfl, ?_, ?_, rfl⟩
  · intro ph t w1 hp
    rw [hcall] at hp
    obtain ⟨h1, -, h2, -, h3, h4, h5⟩ := reboot_frame _ _ _ _ _ hp
    exact ⟨h1, h2, h4, h3, h5⟩
  · intro hc hip hex hrl
    obtain ⟨c, hc2⟩ : ∃ c, s.connection_ = some c := by
      cases hx : s.connection_ with
      | none => exact absurd hx hc
      | some c => exact ⟨c, rfl⟩
    obtain ⟨fails, a, more, hw, hf, ha⟩ := exists_first_success w.attempts hex
    have hr2 := reboot_ok w { s with request_queue_ := rest } c fails a more
      (by simpa using hc2) hip hw hf ha hrl
    exact ⟨_, _, hcall.trans hr2⟩

/-- C3. A popped buffer of exactly four bytes whose key is no entry of the
special command table is not dropped: the poll returns the ENABLE code
`0b1010`, the current Request is `Request::from_packet` of that same buffer,
the mode is command-ready and the buffer has left the queue. -/
theorem C3_unmatched_four_bytes_decoded (P : Platform Req) (w : World)
    (s : iwm_slip Req Resp) (b0 b1 b2 b3 : Byte) (rest : List RawRequest)
    (hq : s.request_queue_ = [b0, b1, b2, b3] :: rest)
    (hk : ∀ e ∈ special_handlers P, e.1 ≠ (b0, b1, b2, b3)) :
    ∃ t, iwm_phase_vector P w s = Except.ok (PHASE_ENABLE, t, w) ∧
      t.current_request = some (P.from_packet [b0, b1, b2, b3]) ∧
      t.sp_command_mode = sp_cmd_state_t.command ∧
      t.request_queue_ = rest ∧ PHASE_ENABLE = 0b1010 := by
  have hn := special_lookup_none_of_no_entry P b0 b1 b2 b3 hk
  exact ⟨_, iwm_phase_vector_normal P w s _ rest hq hn, rfl, rfl, rfl, rfl⟩

/-- C4. After the poll of a buffer of at least eight bytes (such a buffer is
never special), the staged command buffer, when the array has room for the
eight bytes, is the first eight bytes of the buffer followed by zeros up to
the array size, whatever it held before; nothing is read past the end of the
buffer. -/
theorem C4_staged_first_eight_bytes (P : Platform Req) (w : World) (s : iwm_slip Req Resp)
    (r : RawRequest) (rest : List RawRequest) (hq : s.request_queue_ = r :: rest)
    (hr : 8 ≤ r.length) (hd : 8 ≤ s.command_packet_data.length) :
    special_lookup P r = none ∧
    ∃ t, iwm_phase_vector P w s = Except.ok (PHASE_ENABLE, t, w) ∧
      t.command_packet_data =
        r.take 8 ++ List.replicate (s.command_packet_data.length - 8) 0 ∧
      t.command_packet_data.length = s.command_packet_data.length ∧
      t.oob_reads = s.oob_reads := by
  have hn : special_lookup P r = none := special_lookup_of_length P r (by omega)
  refine ⟨hn, _, iwm_phase_vector_normal P w s r rest hq hn, ?_, ?_, ?_⟩
  · simp only
    rw [std_copy_eight P.beyond r _ _ hr (by simpa [std_fill_zero] using hd), std_fill_zero_eq]
    simp
  · simp only
    rw [std_copy_eight P.beyond r _ _ hr (by simpa [std_fill_zero] using hd), std_fill_zero_eq]
    simp
    omega
  · simp only
    rw [std_copy_eight P.beyond r _ _ hr (by simpa [std_fill_zero] using hd)]

/-- C1, at the sample schedule run on a bridge that holds one queued buffer. -/
theorem C1_polls_drain_fifo_witness :
    (sample_bridge [[5, 5, 5, 5]]).is_responding_ = true ∧
    (∃ consumed t w1, run sample_platform sample_schedule steady_world
        (sample_bridge [[5, 5, 5, 5]]) = Except.ok (consumed, t, w1)) ∧
    ([[5, 5, 5, 5], [1, 2, 3, 4, 5, 6, 7, 8, 9], sample_reboot, [3]] ++ [] =
        (sample_bridge [[5, 5, 5, 5]]).request_queue_ ++ pushed sample_schedule ∧
      [[5, 5, 5, 5], [1, 2, 3, 4, 5, 6, 7, 8, 9], sample_reboot, [3]].length ≤
        poll_count sample_schedule) :=
  ⟨rfl,
    (C1_polls_drain_fifo sample_platform steady_world (sample_bridge [[5, 5, 5, 5]])
      sample_schedule rfl).2.2.2 (by decide) (by decide) (by decide) (by decide) rfl,
    (C1_polls_drain_fifo sample_platform steady_world (sample_bridge [[5, 5, 5, 5]])
      sample_schedule rfl).2.1 _ _ _ rfl⟩

/-- C2, at the sample reboot sequence with another buffer queued behind it. -/
theorem C2_special_sequence_runs_handler_witness :
    (sample_bridge [sample_reboot, [9, 9, 9, 9, 9, 9, 9, 9]]).request_queue_ =
        sample_reboot :: [[9, 9, 9, 9, 9, 9, 9, 9]] ∧
    special_lookup sample_platform sample_reboot = some SpecialHandler.reboot ∧
    ∃ t w1, iwm_phase_vector sample_platform sample_world
        (sample_bridge [sample_reboot, [9, 9, 9, 9, 9, 9, 9, 9]]) =
      Except.ok (PHASE_RESET, t, w1) :=
  ⟨rfl, rfl,
    (C2_special_sequence_runs_handler sample_platform sample_world
      (sample_bridge [sample_reboot, [9, 9, 9, 9, 9, 9, 9, 9]]) sample_reboot
      [[9, 9, 9, 9, 9, 9, 9, 9]] SpecialHandler.reboot rfl rfl).2.2.2.2.2.1
      (by decide) (by decide) (by decide) rfl⟩

/-- C3, at the buffer `01 02 03 04`. -/
theorem C3_unmatched_four_bytes_decoded_witness :
    (sample_bridge [[1, 2, 3, 4]]).request_queue_ = [1, 2, 3, 4] :: [] ∧
    (∀ e ∈ special_handlers sample_platform, e.1 ≠ (1, 2, 3, 4)) ∧
    ∃ t, iwm_phase_vector sample_platform sample_world (sample_bridge [[1, 2, 3, 4]]) =
        Except.ok (PHASE_ENABLE, t, sample_world) ∧
      t.current_request = some (sample_platform.from_packet [1, 2, 3, 4]) ∧
      t.sp_command_mode = sp_cmd_state_t.command ∧
      t.request_queue_ = [] ∧ PHASE_ENABLE = 0b1010 :=
  ⟨rfl, by decide,
    C3_unmatched_four_bytes_decoded sample_platform sample_world (sample_bridge [[1, 2, 3, 4]])
      1 2 3 4 [] rfl (by decide)⟩

/-- C4, at a nine-byte buffer and the eight-byte command buffer. -/
theorem C4_staged_first_eight_bytes_witness :
    (sample_bridge [[1, 2, 3, 4, 5, 6, 7, 8, 9]]).request_queue_ =
        [1, 2, 3, 4, 5, 6, 7, 8, 9] :: [] ∧
    8 ≤ ([1, 2, 3, 4, 5, 6, 7, 8, 9] : RawRequest).length ∧
    8 ≤ (sample_bridge [[1, 2, 3, 4, 5, 6, 7, 8, 9]]).command_packet_data.length ∧
    ∃ t, iwm_phase_vector sample_platform sample_world
          (sample_bridge [[1, 2, 3, 4, 5, 6, 7, 8, 9]]) =
        Except.ok (PHASE_ENABLE, t, sample_world) ∧
      t.command_packet_data = [1, 2, 3, 4, 5, 6, 7, 8] :=
  ⟨rfl, by decide, by decide,
    match (C4_staged_first_eight_bytes sample_platform sample_world
      (sample_bridge [[1, 2, 3, 4, 5, 6, 7, 8, 9]]) [1, 2, 3, 4, 5, 6, 7, 8, 9] [] rfl
      (by decide) (by decide)).2 with
    | ⟨t, h1, h2, _⟩ => ⟨t, h1, h2⟩⟩

/-- C5. Scenario A on the code: the queue holds the single buffer
`01 02 03 04`, which is not special. The poll returns ENABLE, but the copy of
eight bytes reads four bytes past the end of the buffer, and the staged
command buffer ends in the four bytes found there (`AA` on the sample
platform), not in zeros. -/
theorem C5_scenario_A_reads_past_end :
    special_lookup sample_platform [1, 2, 3, 4] = none ∧
    iwm_phase_vector sample_platform sample_world (sample_bridge [[1, 2, 3, 4]]) =
      Except.ok (PHASE_ENABLE,
        { sample_bridge [] with
          current_request := some [1, 2, 3, 4]
          command_packet_data := [1, 2, 3, 4, 0xAA, 0xAA, 0xAA, 0xAA]
          oob_reads := 4
          sp_command_mode := sp_cmd_state_t.command }, sample_world) ∧
    ([1, 2, 3, 4, 0xAA, 0xAA, 0xAA, 0xAA] : List Byte) ≠ [1, 2, 3, 4, 0, 0, 0, 0] :=
  ⟨rfl, rfl, by decide⟩

/-- C6. On an empty queue the poll returns the IDLE code `0b0000` and the
only change is that the command mode is standby: the queue is still empty
and the current Request and the staged command buffer are untouched. -/
theorem C6_empty_queue_idle (P : Platform Req) (w : World) (s : iwm_slip Req Resp)
    (hq : s.request_queue_ = []) :
    iwm_phase_vector P w s =
        Except.ok (PHASE_IDLE, { s with sp_command_mode := sp_cmd_state_t.standby }, w) ∧
    PHASE_IDLE = 0b0000 ∧
    ∀ ph t w1, iwm_phase_vector P w s = Except.ok (ph, t, w1) →
      ph = PHASE_IDLE ∧ w1 = w ∧ t.sp_command_mode = sp_cmd_state_t.standby ∧
      t.request_queue_ = [] ∧ t.current_request = s.current_request ∧
      t.command_packet_data = s.command_packet_data := by
  have h : iwm_phase_vector P w s =
      Except.ok (PHASE_IDLE, { s with sp_command_mode := sp_cmd_state_t.standby }, w) := by
    simp [iwm_phase_vector, hq]
  refine ⟨h, rfl, ?_⟩
  intro ph t w1 hp
  rw [h] at hp
  simp only [Except.ok.injEq, Prod.mk.injEq] at hp
  obtain ⟨rfl, rfl, rfl⟩ := hp
  simp [hq]

/-- C6, at the sample bridge with an empty queue. -/
theorem C6_empty_queue_idle_witness :
    (sample_bridge []).request_queue_ = [] ∧
    iwm_phase_vector sample_platform sample_world (sample_bridge []) =
      Except.ok (PHASE_IDLE,
        { sample_bridge [] with sp_command_mode := sp_cmd_state_t.standby }, sample_world) :=
  ⟨rfl, (C6_empty_queue_idle sample_platform sample_world (sample_bridge []) rfl).1⟩

/-- C7, as the claim states it, fails: with an eight-byte buffer queued
behind the reboot sequence the poll returns RESET and that buffer is still
queued. -/
theorem C7_queue_not_emptied_counterexample :
    ∃ t w1, iwm_phase_vector sample_platform sample_world
        (sample_bridge [sample_reboot, [9, 9, 9, 9, 9, 9, 9, 9]]) =
          Except.ok (PHASE_RESET, t, w1) ∧
      t.request_queue_ = [[9, 9, 9, 9, 9, 9, 9, 9]] ∧ t.request_queue_ ≠ [] :=
  ⟨_, _, rfl, rfl, by decide⟩

/-- the registered reboot sequence, taken as a frame, is found in the special
command table -/
theorem special_lookup_registered (P : Platform Req) :
    special_lookup P [P.reboot_sequence.1, P.reboot_sequence.2.1, P.reboot_sequence.2.2.1,
      P.reboot_sequence.2.2.2] = some SpecialHandler.reboot := by
  simp [special_lookup, special_handlers_find, special_handlers]

/-- a retry loop that returns has met failures and then one success, and its
state is the start state connected on the socket of that success -/
theorem setup_spi_loop_returns (l : List Attempt) :
    ∀ (s t : iwm_slip Req Resp) (rest : List Attempt),
      setup_spi_loop l s = Except.ok (t, rest) →
      ∃ fails a, l = fails ++ a :: rest ∧ (∀ b ∈ fails, b.succeeds = false) ∧
        a.succeeds = true ∧
        t = { s with
          connection_sock := a.sock
          connection_ := some { sock := a.sock, is_connected := true, read_channel := true }
          is_responding_ := true
          request_thread_ := true
          closed := s.closed ++ closed_by fails } := by
  induction l with
  | nil => intro s t rest h; simp [setup_spi_loop] at h
  | cons b l ih =>
    intro s t rest h
    by_cases hb : b.succeeds = true
    · by_cases ht : s.request_thread_ = false
      · rw [setup_spi_loop, connect_to_server_succeeds b s hb ht] at h
        simp only [Except.ok.injEq, Prod.mk.injEq] at h
        obtain ⟨rfl, rfl⟩ := h
        exact ⟨[], b, rfl, by simp, hb, by simp [closed_by]⟩
      · have h0 : b.sock ≠ 0 := by
          intro h; simp [Attempt.succeeds, h] at hb
        have hrc : ¬ b.connect_rc < 0 := by
          intro h; simp [Attempt.succeeds, h] at hb
        simp [setup_spi_loop, connect_to_server, h0, hrc, ht] at h
    · have hb2 : b.succeeds = false := by simpa using hb
      rcases connect_to_server_fails b s hb2 with ⟨h0, hcs⟩ | ⟨h0, hcs⟩
      · rw [setup_spi_loop, hcs] at h
        obtain ⟨fails, a, hl, hf, ha, ht⟩ := ih s t rest h
        refine ⟨b :: fails, a, by rw [hl]; rfl, ?_, ha, ?_⟩
        · intro x hx
          rcases List.mem_cons.mp hx with rfl | hx
          · exact hb2
          · exact hf x hx
        · rw [ht, closed_by_cons_zero b fails h0]
      · rw [setup_spi_loop, hcs] at h
        obtain ⟨fails, a, hl, hf, ha, ht⟩ := ih _ t rest h
        refine ⟨b :: fails, a, by rw [hl]; rfl, ?_, ha, ?_⟩
        · intro x hx
          rcases List.mem_cons.mp hx with rfl | hx
          · exact hb2
          · exact hf x hx
        · rw [ht, closed_by_cons_ne b fails h0]
          simp

theorem setup_spi_returns (w w1 : World) (s t : iwm_slip Req Resp)
    (h : setup_spi w s = Except.ok (t, w1)) :
    ∃ fails a, w.attempts = fails ++ a :: w1.attempts ∧ (∀ b ∈ fails, b.succeeds = false) ∧
      a.succeeds = true ∧
      t = { s with
        connection_sock := a.sock
        connection_ := some { sock := a.sock, is_connected := true, read_channel := true }
        is_responding_ := true
        request_thread_ := true
        closed := s.closed ++ closed_by fails } := by
  simp only [setup_spi] at h
  split_ifs at h
  cases hl : setup_spi_loop w.attempts s with
  | error e => simp [hl] at h
  | ok p =>
    obtain ⟨s1, more⟩ := p
    simp only [hl, Except.ok.injEq, Prod.mk.injEq] at h
    obtain ⟨rfl, rfl⟩ := h
    exact setup_spi_loop_returns _ _ _ _ hl

/-- a poll of a special buffer does not return when the receiver thread
stands before the queue mutex: the join in the reboot handler waits for it
and it waits for the poll -/
theorem iwm_phase_vector_deadlock (P : Platform Req) (w : World) (s : iwm_slip Req Resp)
    (r : RawRequest) (rest : List RawRequest) (h : SpecialHandler) (c : Connection)
    (hq : s.request_queue_ = r :: rest) (hs : special_lookup P r = some h)
    (hc : s.connection_ = some c) (ht : s.request_thread_ = true)
    (hrl : w.receiver_at_lock = true) :
    iwm_phase_vector P w s = Except.error Stop.deadlock := by
  obtain ⟨-, hh⟩ := special_lookup_some P r h hs
  subst hh
  rw [iwm_phase_vector_special P w s r rest _ hq hs]
  simp only [SpecialHandler.call, reboot]
  rw [end_request_thread_ok _ c (by simpa using hc)]
  simp [hrl, ht]

/-- the sample bridge polled on the reboot sequence while the receiver thread
stands before the queue mutex -/
theorem sample_reboot_deadlock :
    iwm_phase_vector sample_platform busy_world (sample_bridge [sample_reboot]) =
      Except.error Stop.deadlock :=
  rfl

/-- C7, amended. When the front of the queue is the registered reboot
sequence, whatever is queued behind it, and the poll returns, it returns
RESET; the Connection has been torn down (the old socket handle closed,
unless it was 0, and the sockets of the failed attempts too) and
re-established on the socket of the first connect attempt that succeeded,
with the responding flag true and the receiver thread started; and the queue
is not emptied: it holds exactly the buffers that were queued behind the
reboot sequence, in their order. -/
theorem C7_reboot_reconnects_keeps_queue (P : Platform Req) (w w1 : World)
    (s t : iwm_slip Req Resp) (rest : List RawRequest) (ph : Byte)
    (hq : s.request_queue_ = [P.reboot_sequence.1, P.reboot_sequence.2.1,
      P.reboot_sequence.2.2.1, P.reboot_sequence.2.2.2] :: rest)
    (h : iwm_phase_vector P w s = Except.ok (ph, t, w1)) :
    ph = PHASE_RESET ∧ t.request_queue_ = rest ∧
    ∃ c fails a, s.connection_ = some c ∧ w.attempts = fails ++ a :: w1.attempts ∧
      (∀ b ∈ fails, b.succeeds = false) ∧ a.succeeds = true ∧
      t.closed = (if s.connection_sock = 0 then s.closed else s.closed ++ [s.connection_sock])
        ++ closed_by fails ∧
      t.connection_ = some { sock := a.sock, is_connected := true, read_channel := true } ∧
      t.connection_sock = a.sock ∧ t.is_responding_ = true ∧ t.request_thread_ = true := by
  rw [iwm_phase_vector_special P w s _ rest _ hq (special_lookup_registered P)] at h
  simp only [SpecialHandler.call] at h
  obtain ⟨hph, -, s2, h1, h2⟩ := reboot_returns _ _ _ _ _ h
  obtain ⟨fails, a, hw, hf, ha, hst⟩ := setup_spi_returns _ _ _ _ h2
  cases hc : s.connection_ with
  | none => simp [end_request_thread, hc] at h1
  | some c =>
    rw [end_request_thread_ok _ c (by simpa using hc)] at h1
    simp only [Except.ok.injEq] at h1
    subst h1
    subst hst
    exact ⟨hph, rfl, c, fails, a, rfl, hw, hf, ha, rfl, rfl, rfl, rfl, rfl⟩

/-- C7 amended, at the sample network: two failed attempts, then socket 9. -/
theorem C7_reboot_reconnects_keeps_queue_witness :
    (sample_bridge [sample_reboot, [9, 9, 9, 9, 9, 9, 9, 9]]).request_queue_ =
      [sample_platform.reboot_sequence.1, sample_platform.reboot_sequence.2.1,
        sample_platform.reboot_sequence.2.2.1, sample_platform.reboot_sequence.2.2.2] ::
        [[9, 9, 9, 9, 9, 9, 9, 9]] ∧
    iwm_phase_vector sample_platform sample_world
        (sample_bridge [sample_reboot, [9, 9, 9, 9, 9, 9, 9, 9]]) =
      Except.ok (PHASE_RESET,
        { sample_bridge [[9, 9, 9, 9, 9, 9, 9, 9]] with
          connection_sock := 9
          connection_ := some { sock := 9, is_connected := true, read_channel := true }
          closed := [7, 8] },
        { sample_world with attempts := [{ sock := 10, connect_rc := 0 }] }) ∧
    ({ sample_bridge [[9, 9, 9, 9, 9, 9, 9, 9]] with
          connection_sock := 9
          connection_ := some { sock := 9, is_connected := true, read_channel := true }
          closed := [7, 8] } : iwm_slip RawRequest (List Byte)).request_queue_ =
      [[9, 9, 9, 9, 9, 9, 9, 9]] :=
  ⟨rfl, rfl,
    (C7_reboot_reconnects_keeps_queue sample_platform sample_world _
      (sample_bridge [sample_reboot, [9, 9, 9, 9, 9, 9, 9, 9]]) _ [[9, 9, 9, 9, 9, 9, 9, 9]]
      PHASE_RESET rfl rfl).2.1⟩

/-- C8. On a bridge that has a connection, `end_request_thread` returns, and
running it again on the state it left returns that same state: the responding
flag is false, the connection is marked not connected, the socket handle is
0 and the receiver thread is not joinable. The first run hands the old
handle to `close()` unless it was 0, and the second run closes nothing. -/
theorem C8_end_request_thread_idempotent (s : iwm_slip Req Resp) (c : Connection)
    (hc : s.connection_ = some c) :
    ∃ t, end_request_thread s = Except.ok t ∧ end_request_thread t = Except.ok t ∧
      t.is_responding_ = false ∧
      t.connection_ = some { sock := c.sock, is_connected := false, read_channel := false } ∧
      t.connection_sock = 0 ∧ t.request_thread_ = false ∧
      t.closed = (if s.connection_sock = 0 then s.closed else s.closed ++ [s.connection_sock]) ∧
      close_connection t.connection_sock t = t := by
  refine ⟨_, end_request_thread_ok s c hc, ?_, rfl, rfl, rfl, rfl, rfl, ?_⟩
  · rw [end_request_thread_ok _ { sock := c.sock, is_connected := false, read_channel := false }
      rfl]
    simp
  · simp [close_connection]

/-- C8, at the sample bridge connected on socket 7. -/
theorem C8_end_request_thread_idempotent_witness :
    (sample_bridge []).connection_ =
        some { sock := 7, is_connected := true, read_channel := true } ∧
    ∃ t, end_request_thread (sample_bridge []) = Except.ok t ∧
      end_request_thread t = Except.ok t ∧ t.closed = [7] :=
  ⟨rfl,
    match C8_end_request_thread_idempotent (sample_bridge [])
      { sock := 7, is_connected := true, read_channel := true } rfl with
    | ⟨t, h1, h2, _, _, _, _, h7, _⟩ => ⟨t, h1, h2, h7⟩⟩

/-- C9. The status that `iwm_send_packet_spi` returns does not depend on
whether the send threw: the result is the same as for a send that succeeded,
every status it returns is 0, and on the sample bridge a send that throws
gives status 0, the success code. -/
theorem C9_send_failure_returns_zero :
    (∀ (Req Resp : Type) (serialize : Resp → List Byte) (send_data : List Byte → Bool)
        (s : iwm_slip Req Resp),
        iwm_send_packet_spi serialize send_data s =
            iwm_send_packet_spi serialize (fun _ => true) s ∧
          ∀ status t, iwm_send_packet_spi serialize send_data s = Except.ok (status, t) →
            status = 0) ∧
    iwm_send_packet_spi (fun r => r) (fun _ => false) (sample_bridge []) =
      Except.ok (0, sample_bridge []) := by
  refine ⟨?_, rfl⟩
  intro Req Resp serialize send_data s
  simp only [iwm_send_packet_spi]
  cases s.current_response with
  | none => simp
  | some r =>
    cases s.connection_ with
    | none => simp
    | some c =>
      simp only [ite_self, true_and]
      intro status t h
      simp only [Except.ok.injEq, Prod.mk.injEq] at h
      exact h.1.symm

/-- C10, as the claim states it, fails: a three-byte buffer, which is
shorter than the header and not special, is not discarded; the poll returns
ENABLE, not IDLE, the mode is command-ready and the buffer has been decoded
into the current Request. -/
theorem C10_short_request_not_discarded_counterexample :
    special_lookup sample_platform [1, 2, 3] = none ∧
    ∃ t, iwm_phase_vector sample_platform sample_world
          (sample_bridge [[1, 2, 3], [1, 2, 3, 4, 5, 6, 7, 8]]) =
        Except.ok (PHASE_ENABLE, t, sample_world) ∧
      PHASE_ENABLE ≠ PHASE_IDLE ∧ t.sp_command_mode = sp_cmd_state_t.command ∧
      t.current_request = some [1, 2, 3] ∧
      t.command_packet_data ≠ (sample_bridge []).command_packet_data :=
  ⟨rfl, _, rfl, by decide, rfl, rfl, by decide⟩

/-- C10, amended. The poll does not validate the popped buffer: every buffer
that is not a registered special sequence, whatever its length, leaves the
queue, is decoded by `Request::from_packet` into the current Request, sets
the mode to command-ready and makes the poll return ENABLE, which is not
IDLE; the buffers behind it stay queued in order for the next polls, and
when the queue is then empty the next poll returns IDLE. -/
theorem C10_every_request_decoded (P : Platform Req) (w : World) (s : iwm_slip Req Resp)
    (r : RawRequest) (rest : List RawRequest) (hq : s.request_queue_ = r :: rest)
    (hn : special_lookup P r = none) :
    ∃ t, iwm_phase_vector P w s = Except.ok (PHASE_ENABLE, t, w) ∧
      PHASE_ENABLE ≠ PHASE_IDLE ∧
      t.sp_command_mode = sp_cmd_state_t.command ∧
      t.current_request = some (P.from_packet r) ∧
      t.request_queue_ = rest ∧
      (rest = [] → iwm_phase_vector P w t =
        Except.ok (PHASE_IDLE, { t with sp_command_mode := sp_cmd_state_t.standby }, w)) ∧
      (∀ r2 rest2, rest = r2 :: rest2 → special_lookup P r2 = none →
        ∃ u, iwm_phase_vector P w t = Except.ok (PHASE_ENABLE, u, w) ∧
          u.current_request = some (P.from_packet r2) ∧ u.request_queue_ = rest2) := by
  refine ⟨_, iwm_phase_vector_normal P w s r rest hq hn, by decide, rfl, rfl, rfl, ?_, ?_⟩
  · intro hrest
    simp [iwm_phase_vector, hrest]
  · intro r2 rest2 hrest hn2
    exact ⟨_, iwm_phase_vector_normal P w _ r2 rest2 hrest hn2, rfl, rfl⟩

/-- C10 amended, at a three-byte buffer followed by an eight-byte one. -/
theorem C10_every_request_decoded_witness :
    (sample_bridge [[1, 2, 3], [1, 2, 3, 4, 5, 6, 7, 8]]).request_queue_ =
        [1, 2, 3] :: [[1, 2, 3, 4, 5, 6, 7, 8]] ∧
    special_lookup sample_platform [1, 2, 3] = none ∧
    ∃ t, iwm_phase_vector sample_platform sample_world
          (sample_bridge [[1, 2, 3], [1, 2, 3, 4, 5, 6, 7, 8]]) =
        Except.ok (PHASE_ENABLE, t, sample_world) ∧
      t.current_request = some [1, 2, 3] ∧
      t.request_queue_ = [[1, 2, 3, 4, 5, 6, 7, 8]] :=
  ⟨rfl, rfl,
    match C10_every_request_decoded sample_platform sample_world
      (sample_bridge [[1, 2, 3], [1, 2, 3, 4, 5, 6, 7, 8]]) [1, 2, 3]
      [[1, 2, 3, 4, 5, 6, 7, 8]] rfl rfl with
    | ⟨t, h1, _, _, h4, h5, _⟩ => ⟨t, h1, h4, h5⟩⟩

theorem setup_spi_loop_all_fail (fails : List Attempt) :
    ∀ s : iwm_slip Req Resp, (∀ b ∈ fails, b.succeeds = false) →
      setup_spi_loop fails s = Except.error Stop.still_retrying := by
  induction fails with
  | nil =>
    intro s _
    rfl
  | cons b fails ih =>
    intro s hf
    have hb : b.succeeds = false := hf b (List.mem_cons_self _ _)
    have hf2 : ∀ x ∈ fails, x.succeeds = false := fun x hx => hf x (List.mem_cons_of_mem _ hx)
    rcases connect_to_server_fails b s hb with ⟨_, hcs⟩ | ⟨_, hcs⟩
    · rw [setup_spi_loop, hcs]
      exact ih s hf2
    · rw [setup_spi_loop, hcs]
      exact ih _ hf2

/-- C11. When the host resolves, the receiver thread object is not joinable
(as at start-up and after `end_request_thread`), and the connect attempts
fail `N` times, by `false` or by the runtime error, and then succeed,
`setup_spi` returns after exactly `N + 1` attempts: the attempts behind the
successful one are unused and the bridge is connected on its socket with the
responding flag true and the receiver thread started. After any number
`k ≤ N` of the failures the loop has neither returned nor thrown: it is
still retrying. -/
theorem C11_setup_spi_retries_until_connected (w : World) (s : iwm_slip Req Resp)
    (fails : List Attempt) (a : Attempt) (more : List Attempt)
    (hip : w.host_ip ≠ IPADDR_NONE) (hw : w.attempts = fails ++ a :: more)
    (hf : ∀ b ∈ fails, b.succeeds = false) (ha : a.succeeds = true)
    (ht : s.request_thread_ = false) :
    (∃ t, setup_spi w s = Except.ok (t, { w with attempts := more }) ∧
      t.is_responding_ = true ∧ t.request_thread_ = true ∧
      t.connection_ = some { sock := a.sock, is_connected := true, read_channel := true } ∧
      t.connection_sock = a.sock ∧ t.closed = s.closed ++ closed_by fails) ∧
    w.attempts.length = (fails.length + 1) + more.length ∧
    (∀ k, k ≤ fails.length →
      setup_spi { w with attempts := w.attempts.take k } s =
        Except.error Stop.still_retrying) := by
  refine ⟨?_, ?_, ?_⟩
  · have hl := setup_spi_loop_ok fails a more s hf ha ht
    have h : setup_spi w s = Except.ok
        ({ s with
          connection_sock := a.sock
          connection_ := some { sock := a.sock, is_connected := true, read_channel := true }
          is_responding_ := true
          request_thread_ := true
          closed := s.closed ++ closed_by fails }, { w with attempts := more }) := by
      simp only [setup_spi, hip, if_false, hw, hl]
    exact ⟨_, h, rfl, rfl, rfl, rfl, rfl⟩
  · rw [hw]
    simp only [List.length_append, List.length_cons]
    omega
  · intro k hk
    have htake : w.attempts.take k = fails.take k := by
      rw [hw, List.take_append_of_le_length hk]
    have hfk : ∀ b ∈ fails.take k, b.succeeds = false :=
      fun b hb => hf b (List.mem_of_mem_take hb)
    simp only [setup_spi, hip, if_false, htake]
    rw [setup_spi_loop_all_fail (fails.take k) s hfk]

/-- C11, at the sample network: a refused connect, a failed `socket()`, then
socket 9 is accepted. -/
theorem C11_setup_spi_retries_until_connected_witness :
    sample_world.host_ip ≠ IPADDR_NONE ∧
    sample_world.attempts =
      [{ sock := 8, connect_rc := -1 }, { sock := 0, connect_rc := 0 }] ++
        { sock := 9, connect_rc := 0 } :: [{ sock := 10, connect_rc := 0 }] ∧
    fresh_bridge.request_thread_ = false ∧
    ∃ t, setup_spi sample_world fresh_bridge =
        Except.ok (t, { sample_world with attempts := [{ sock := 10, connect_rc := 0 }] }) ∧
      t.is_responding_ = true ∧ t.request_thread_ = true ∧
      t.connection_ = some { sock := 9, is_connected := true, read_channel := true } :=
  ⟨by decide, rfl, rfl,
    match (C11_setup_spi_retries_until_connected sample_world fresh_bridge
      [{ sock := 8, connect_rc := -1 }, { sock := 0, connect_rc := 0 }]
      { sock := 9, connect_rc := 0 } [{ sock := 10, connect_rc := 0 }]
      (by decide) rfl (by decide) (by decide) rfl).1 with
    | ⟨t, h1, h2, h3, h4, _⟩ => ⟨t, h1, h2, h3, h4⟩⟩

end IwmSlip

namespace DiskTypeATR

/-! ## Lemmas and theorems on ATR images -/

theorem bits_16_to_23 (x : Nat) : (x &&& 0xFF0000) >>> 16 = x / 65536 % 256 := by
  have h1 : (0xFF0000 : Nat) = (2 ^ 8 - 1) <<< 16 := by decide
  have h2 : x / 65536 % 256 = (x >>> 16) % 2 ^ 8 := by
    rw [Nat.shiftRight_eq_div_pow]
    norm_num
  rw [h1, h2]
  apply Nat.eq_of_testBit_eq
  intro i
  simp only [Nat.testBit_shiftRight, Nat.testBit_and, Nat.testBit_shiftLeft,
    Nat.testBit_two_pow_sub_one, Nat.testBit_mod_two_pow]
  by_cases hi : i < 8
  · simp [hi, Bool.and_comm]
  · simp [hi]

theorem paragraphs_from_bytes (x : Nat) (hx : x < 2 ^ 24) :
    UINT16_FROM_HILOBYTES (HIBYTE_FROM_UINT16 x) (LOBYTE_FROM_UINT16 x) |||
      ((((x &&& 0xFF0000) >>> 16) % 256) <<< 16) = x := by
  rw [bits_16_to_23]
  have hlo : UINT16_FROM_HILOBYTES (HIBYTE_FROM_UINT16 x) (LOBYTE_FROM_UINT16 x) = x % 65536 := by
    simp only [UINT16_FROM_HILOBYTES, HIBYTE_FROM_UINT16, LOBYTE_FROM_UINT16]
    omega
  rw [hlo, Nat.shiftLeft_eq, Nat.lor_comm]
  have hlt : x % 65536 < 2 ^ 16 := by omega
  have := Nat.mul_add_lt_is_or hlt (x / 65536 % 256 % 256)
  rw [Nat.mul_comm] at this
  rw [← this]
  omega

theorem atr_header_single (n : Nat) (hn : n ≤ 65535) :
    atr_header 128 n = [0x96, 0x02, LOBYTE_FROM_UINT16 (8 * n), HIBYTE_FROM_UINT16 (8 * n),
      128, 0, (((8 * n) &&& 0xFF0000) >>> 16) % 256, 0, 0, 0, 0, 0, 0, 0, 0, 0] := by
  have h1 : n * 128 % 2 ^ 32 / 16 = 8 * n := by omega
  simp only [atr_header, gt_iff_lt, lt_irrefl, if_false, h1]
  rfl

theorem atr_header_double (n : Nat) (h3 : 3 ≤ n) (hn : n ≤ 65535) :
    atr_header 256 n = [0x96, 0x02, LOBYTE_FROM_UINT16 (16 * n - 24),
      HIBYTE_FROM_UINT16 (16 * n - 24), 0, 1,
      (((16 * n - 24) &&& 0xFF0000) >>> 16) % 256, 0, 0, 0, 0, 0, 0, 0, 0, 0] := by
  have h1 : (n * 256 % 2 ^ 32 + 2 ^ 32 - 384) % 2 ^ 32 / 16 = 16 * n - 24 := by omega
  have h2 : (256 : Nat) > 128 := by decide
  simp only [atr_header, h2, if_true, h1]
  rfl

theorem mount_atr_header (sectorSize numSectors : Nat)
    (hs : sectorSize = 128 ∨ sectorSize = 256) (h3 : 3 ≤ numSectors)
    (hn : numSectors ≤ 65535) (rest : List Nat) (disksize : Nat) (d : DiskTypeATR) :
    mount (atr_header sectorSize numSectors ++ rest) disksize d =
      some { _disktype := disktype_t.DISKTYPE_ATR, _sectorSize := sectorSize,
             _numSectors := numSectors, _imageSize := disksize, _lastSectorUsed := none } := by
  have hmagic : UINT16_FROM_HILOBYTES 0x02 0x96 = ATR_MAGIC_HEADER := by decide
  rcases hs with rfl | rfl
  · have hp := paragraphs_from_bytes (8 * numSectors) (by omega)
    have hss : UINT16_FROM_HILOBYTES 0 128 = 128 := by decide
    have hdiv : 8 * numSectors * 16 % 2 ^ 32 / 128 = numSectors := by omega
    rw [atr_header_single numSectors hn]
    simp only [mount, List.cons_append, List.take_succ_cons, List.take_zero, hmagic, hss, hp,
      hdiv, ne_eq, not_true_eq_false, if_false]
    simp
  · have hp := paragraphs_from_bytes (16 * numSectors - 24) (by omega)
    have hss : UINT16_FROM_HILOBYTES 1 0 = 256 := by decide
    have hdiv : (16 * numSectors - 24) * 16 % 2 ^ 32 / 256 + 2 = numSectors := by omega
    rw [atr_header_double numSectors h3 hn]
    simp only [mount, List.cons_append, List.take_succ_cons, List.take_zero, hmagic, hss, hp,
      hdiv, ne_eq, not_true_eq_false, if_false, if_true]
    simp [hdiv]

theorem mount_take (f : List Nat) (disksize : Nat) (d : DiskTypeATR) :
    mount (f.take 7) disksize d = mount f disksize d := by
  simp only [mount, List.take_take, Nat.min_self]

theorem fwrite_fits (f : FILE) (bytes : List Nat) (hb : 0 < bytes.length)
    (hroom : f.pos + bytes.length ≤ f.capacity) :
    ∃ g, fwrite f bytes = (bytes.length, g) ∧ g.pos = f.pos + bytes.length ∧
      g.capacity = f.capacity ∧ g.data.length = max f.data.length (f.pos + bytes.length) ∧
      ∀ k, k ≤ f.pos → k ≤ f.data.length → g.data.take k = f.data.take k := by
  have ht : bytes.take (f.capacity - f.pos) = bytes :=
    List.take_of_length_le (by omega)
  have hne : bytes.length ≠ 0 := by omega
  refine ⟨{ f with
      data := f.data.take f.pos ++ List.replicate (f.pos - f.data.length) 0 ++ bytes ++
        f.data.drop (f.pos + bytes.length)
      pos := f.pos + bytes.length }, by simp only [fwrite, ht, hne, if_false], rfl, rfl, ?_, ?_⟩
  · simp only [List.length_append, List.length_take, List.length_replicate, List.length_drop]
    omega
  · intro k hk1 hk2
    simp only [List.append_assoc]
    rw [List.take_append_of_le_length (by simp only [List.length_take]; omega), List.take_take]
    congr 1
    omega

theorem fwrite_empty_file (capacity : Nat) (bytes : List Nat) (hb : 0 < bytes.length)
    (hroom : bytes.length ≤ capacity) :
    fwrite (empty_file capacity) bytes =
      (bytes.length, { data := bytes, pos := bytes.length, capacity := capacity }) := by
  have ht : bytes.take (capacity - 0) = bytes := List.take_of_length_le (by omega)
  have hne : bytes.length ≠ 0 := by omega
  simp only [fwrite, empty_file, ht, hne, if_false, List.take_nil, List.length_nil,
    Nat.sub_self, List.replicate_zero, List.nil_append, List.drop_nil, List.append_nil,
    Nat.zero_add]

theorem create_first_sectors_ok (i : Nat) :
    ∀ (f : FILE) (offset numSectors : Nat), f.pos = f.data.length →
      f.pos + 128 * i ≤ f.capacity → offset + 128 * i < 2 ^ 32 → i ≤ numSectors →
      numSectors < 65536 →
      ∃ g, create_first_sectors i f offset numSectors =
          Except.ok (g, offset + 128 * i, numSectors - i) ∧
        g.pos = f.pos + 128 * i ∧ g.capacity = f.capacity ∧
        g.data.length = f.data.length + 128 * i ∧
        ∀ k, k ≤ f.data.length → g.data.take k = f.data.take k := by
  induction i with
  | zero =>
    intro f offset numSectors _ _ _ _ _
    exact ⟨f, by simp only [create_first_sectors, Nat.mul_zero, Nat.add_zero, Nat.sub_zero],
      rfl, rfl, rfl, fun _ _ => rfl⟩
  | succ i ih =>
    intro f offset numSectors hpos hcap hoff hnum hlt
    have hz : (List.replicate 128 (0 : Nat)).length = 128 := List.length_replicate _ _
    obtain ⟨g, hg, hgpos, hgcap, hglen, hgtake⟩ :=
      fwrite_fits f (List.replicate 128 0) (by rw [hz]; omega) (by rw [hz]; omega)
    rw [hz] at hg hgpos hglen
    obtain ⟨g2, hg2, h2pos, h2cap, h2len, h2take⟩ := ih g ((offset + 128) % 2 ^ 32)
      ((numSectors + 65535) % 65536) (by omega) (by omega) (by omega) (by omega) (by omega)
    refine ⟨g2, ?_, by omega, by omega, by omega, ?_⟩
    · have e1 : (offset + 128) % 2 ^ 32 + 128 * i = offset + 128 * (i + 1) := by omega
      have e2 : (numSectors + 65535) % 65536 - i = numSectors - (i + 1) := by omega
      simp only [create_first_sectors, hg, ne_eq, not_true_eq_false, if_false, hg2, e1, e2]
    · intro k hk
      rw [h2take k (by omega), hgtake k (by omega) hk]

theorem create_ok (beyond : Nat → Nat) (sectorSize numSectors capacity : Nat)
    (hs : sectorSize = 128 ∨ sectorSize = 256) (h3 : 3 ≤ numSectors)
    (hn : numSectors ≤ 65535) (hcap : 400 + (numSectors - 3) * sectorSize ≤ capacity) :
    ∃ f, create beyond (empty_file capacity) sectorSize numSectors = (true, f) ∧
      f.data.take 7 = (atr_header sectorSize numSectors).take 7 ∧
      f.data.length = 16 + 3 * 128 + (numSectors - 3) * sectorSize := by
  have hlen : (atr_header sectorSize numSectors).length = 16 := by
    simp only [atr_header, List.length_cons, List.length_nil]
  have hss : 128 ≤ sectorSize ∧ sectorSize ≤ 256 := by
    rcases hs with rfl | rfl <;> decide
  have hw := fwrite_empty_file capacity (atr_header sectorSize numSectors) (by omega) (by omega)
  rw [hlen] at hw
  obtain ⟨g, hg, hgpos, hgcap, hglen, hgtake⟩ := create_first_sectors_ok 3
    { data := atr_header sectorSize numSectors, pos := 16, capacity := capacity } 16 numSectors
    (by simp only [hlen]) (by simp only; omega) (by omega) h3 (by omega)
  simp only [hlen] at hgpos hgcap hglen hgtake
  have hmul : (numSectors - 3) * sectorSize ≤ 65535 * 256 := Nat.mul_le_mul (by omega) hss.2
  have hoff : (16 + 128 * 3 + (numSectors - 3) * sectorSize + 2 ^ 32 - sectorSize) % 2 ^ 32
      = 400 + (numSectors - 3) * sectorSize - sectorSize := by omega
  have hz : (blank_bytes beyond sectorSize).length = sectorSize := by
    simp only [blank_bytes, List.length_map, List.length_range]
  obtain ⟨g2, hg2, -, -, h2len, h2take⟩ := fwrite_fits
    (fseek g (400 + (numSectors - 3) * sectorSize - sectorSize)) (blank_bytes beyond sectorSize)
    (by rw [hz]; omega) (by rw [hz]; simp only [fseek]; omega)
  rw [hz] at hg2 h2len
  refine ⟨g2, ?_, ?_, ?_⟩
  · simp only [create, hw, hg, hoff, hg2, ne_eq, not_true_eq_false, if_false]
  · rw [h2take 7 (by simp only [fseek]; omega) (by simp only [fseek]; omega)]
    simp only [fseek]
    exact hgtake 7 (by omega)
  · rw [h2len]
    simp only [fseek]
    omega

theorem layout_sum (d : DiskTypeATR) (m : Nat) :
    ((List.range m).map (fun i => sector_size d (i + 1))).sum =
      if m ≤ 3 then 128 * m else 384 + d._sectorSize * (m - 3) := by
  induction m with
  | zero => simp
  | succ m ih =>
    rw [List.range_succ, List.map_append, List.sum_append, ih]
    simp only [List.map_cons, List.map_nil, List.sum_cons, List.sum_nil, Nat.add_zero,
      sector_size]
    by_cases h2 : m + 1 ≤ 3
    · have h1 : m ≤ 3 := by omega
      simp only [h1, h2, if_true]
      omega
    · by_cases h1 : m ≤ 3
      · have hm : m = 3 := by omega
        subst hm
        simp
      · obtain ⟨k, rfl⟩ : ∃ k, m = k + 4 := ⟨m - 4, by omega⟩
        simp only [h1, h2, if_false]
        have e1 : k + 4 - 3 = k + 1 := by omega
        have e2 : k + 4 + 1 - 3 = k + 1 + 1 := by omega
        rw [e1, e2, Nat.mul_succ d._sectorSize (k + 1)]
        omega

/-- C12. The claim fails on the code for sectors 2 and 3 of a disk with
256-byte sectors: `_sector_to_offset` gives 272 and 528, while the header and
the sizes of the sectors before them give 144 and 272. Everywhere else in
the range of the claim the two agree: for 128-byte sectors at every sector
number from 1 to 65535, and for 256-byte sectors at sector 1 and at every
sector above 3. -/
theorem C12_sector_offset_misses_sectors_2_and_3 :
    _sector_to_offset double_density 2 = 272 ∧ layout_offset double_density 2 = 144 ∧
    _sector_to_offset double_density 3 = 528 ∧ layout_offset double_density 3 = 272 ∧
    sector_size double_density 1 = 128 ∧ sector_size double_density 2 = 128 ∧
    (∀ (d : DiskTypeATR) (n : Nat), 1 ≤ n → n ≤ 65535 →
      d._sectorSize = 128 ∨ (d._sectorSize = 256 ∧ (n = 1 ∨ 3 < n)) →
      _sector_to_offset d n = layout_offset d n) := by
  refine ⟨by decide, by decide, by decide, by decide, by decide, by decide, ?_⟩
  intro d n h1 hn hd
  simp only [layout_offset, layout_sum, _sector_to_offset]
  rcases hd with hs | ⟨hs, rfl | h3⟩
  · simp only [hs]
    split_ifs <;> omega
  · simp [hs]
  · have c1 : n > 0 := by omega
    have c4 : n > 3 := h3
    simp only [hs, c1, c4, and_self, if_true]
    split_ifs <;> omega

/-- C13. For a sector size of 128 or 256 and a sector count from 3 to 65535,
the header that `create` builds starts with the magic bytes `96 02`, and
`mount` of any file that starts with this header passes the magic check and
sets the sector size and the sector count to the values given to `create`;
moreover `create` on an empty file with room for the image returns true, the
file it leaves has the size of the header, three 128-byte sectors and the
other sectors, and `mount` of that file gives the same result. -/
theorem C13_create_mount_round_trip (sectorSize numSectors : Nat)
    (hs : sectorSize = 128 ∨ sectorSize = 256) (h3 : 3 ≤ numSectors)
    (hn : numSectors ≤ 65535) :
    (atr_header sectorSize numSectors).take 2 = [0x96, 0x02] ∧
    UINT16_FROM_HILOBYTES 0x02 0x96 = ATR_MAGIC_HEADER ∧
    (∀ (rest : List Nat) (disksize : Nat) (d : DiskTypeATR),
      mount (atr_header sectorSize numSectors ++ rest) disksize d =
        some { _disktype := disktype_t.DISKTYPE_ATR, _sectorSize := sectorSize,
               _numSectors := numSectors, _imageSize := disksize, _lastSectorUsed := none }) ∧
    (∀ (beyond : Nat → Nat) (capacity disksize : Nat) (d : DiskTypeATR),
      400 + (numSectors - 3) * sectorSize ≤ capacity →
      ∃ f, create beyond (empty_file capacity) sectorSize numSectors = (true, f) ∧
        f.data.length = 16 + 3 * 128 + (numSectors - 3) * sectorSize ∧
        mount f.data disksize d =
          some { _disktype := disktype_t.DISKTYPE_ATR, _sectorSize := sectorSize,
                 _numSectors := numSectors, _imageSize := disksize,
                 _lastSectorUsed := none }) := by
  refine ⟨?_, by decide, ?_, ?_⟩
  · rcases hs with rfl | rfl
    · rw [atr_header_single numSectors hn]
      rfl
    · rw [atr_header_double numSectors h3 hn]
      rfl
  · intro rest disksize d
    exact mount_atr_header sectorSize numSectors hs h3 hn rest disksize d
  · intro beyond capacity disksize d hcap
    obtain ⟨f, hf, htake, hlen⟩ :=
      create_ok beyond sectorSize numSectors capacity hs h3 hn hcap
    refine ⟨f, hf, hlen, ?_⟩
    rw [← mount_take, htake, mount_take]
    have := mount_atr_header sectorSize numSectors hs h3 hn [] disksize d
    rwa [List.append_nil] at this

/-- C13, at a double-density disk of 720 sectors. -/
theorem C13_create_mount_round_trip_witness :
    ((256 : Nat) = 128 ∨ (256 : Nat) = 256) ∧ 3 ≤ 720 ∧ 720 ≤ 65535 ∧
    mount (atr_header 256 720 ++ []) 184720 unmounted =
      some { _disktype := disktype_t.DISKTYPE_ATR, _sectorSize := 256, _numSectors := 720,
             _imageSize := 184720, _lastSectorUsed := none } :=
  ⟨by decide, by decide, by decide,
    (C13_create_mount_round_trip 256 720 (by decide) (by decide) (by decide)).2.2.1 []
      184720 unmounted⟩

end DiskTypeATR
